import Mathlib

/-!
# golymer: the reactive binding engine

A shallow embedding of `element.go` and `golymer.go`.

Conventions of the embedding.

* A Go string is a sequence of bytes.  It is written here as a `String` whose
  characters stand for the bytes, so that an ASCII string denotes itself,
  `len(s)` is `s.length` and `s[i:j]` is the corresponding sub-list of `s.data`
  (a run-time fault when the bounds are out of range).
* A `*js.Object` is a `JSVal`.  JavaScript objects live in a heap of property
  tables (`State.props`); a `Proxy` object is a reference into `State.proxies`,
  which records the two variables its handler closes over.
* Calls into the host (console, `setAttribute`, `addEventListener`,
  `MutationObserver`) are appended to `State.calls`; what the browser does in
  reaction to them is outside the program.  A store into a property of a DOM
  node keeps the value as it is given: the browser's own conversion of
  attribute values to text is outside the program as well.
* A Go panic or an uncaught JavaScript exception is a `Fault`.
-/

namespace Golymer

/-! ## Values -/

/-- The kinds of `reflect.Kind`. -/
inductive Kind
  | Invalid | Bool | Int | Int8 | Int16 | Int32 | Int64
  | Uint | Uint8 | Uint16 | Uint32 | Uint64 | Uintptr
  | Float32 | Float64 | Complex64 | Complex128
  | Array | Chan | Func | Interface | Map | Ptr | Slice | String | Struct
  | UnsafePointer
  deriving DecidableEq, Repr

/-- A `reflect.Type`, as far as the program looks at it: `Kind()` and `Name()`. -/
structure ReflectType where
  Kind : Kind
  Name : String
  deriving DecidableEq, Repr

/-- A `reflect.StructField`: `PkgPath` is empty exactly for exported fields. -/
structure StructField where
  Name : String
  PkgPath : String
  Type_ : ReflectType
  deriving DecidableEq, Repr

/-- An IEEE-754 double, given by its bit pattern. -/
structure Float64 where
  bits : Nat
  deriving DecidableEq, Repr

/-- A reference to a JavaScript object: a DOM node or a plain object. -/
inductive Ref
  | node (id : Nat)
  | obj (id : Nat)
  deriving DecidableEq, Repr

/-- A JavaScript value, the content of a `*js.Object`. -/
inductive JSVal
  | undefined
  | null
  | boolean (b : Bool)
  | number (x : Float64)
  | string (s : String)
  | ref (r : Ref)
  | proxy (id : Nat)
  deriving DecidableEq, Repr

/-- The dynamic value of a Go `interface{}`, as far as `convertJSType` produces
them: `composite` stands for the maps, slices and functions that
`(*js.Object).Interface` builds from a JavaScript object that is not a node. -/
inductive GoVal
  | nil
  | bool (b : Bool)
  | string (s : String)
  | float64 (x : Float64)
  | int64 (i : Int)
  | uint64 (u : Nat)
  | jsObject (o : JSVal)
  | composite (o : JSVal)
  deriving DecidableEq, Repr

/-- The two errors of package `strconv`. -/
inductive ParseErr
  | ErrSyntax
  | ErrRange
  deriving DecidableEq, Repr

/-- A run-time fault: a Go panic or an uncaught JavaScript exception. -/
inductive Fault
  | sliceBounds
  | nilDereference
  | typeError
  | reflectPanic
  | stackOverflow
  deriving DecidableEq, Repr

deriving instance DecidableEq for Except

/-- The parts of the Go and JavaScript run time that the program calls and that
are kept abstract: floating-point parsing and printing, the conversion of
64-bit integers to JavaScript numbers, the printing of objects, and the
functions of this package that live outside `element.go` and `golymer.go`. -/
structure Runtime where
  /-- The function `strconv.ParseFloat(s, bitSize)`. -/
  parseFloat : String → Nat → Float64 × Option ParseErr
  /-- Externalisation of an `int64`. -/
  int64ToNumber : Int → Float64
  /-- Externalisation of a `uint64`. -/
  uint64ToNumber : Nat → Float64
  /-- JavaScript `String(x)` for a number. -/
  numberToString : Float64 → String
  /-- JavaScript `String(o)` for an object. -/
  objectToString : JSVal → String
  /-- JavaScript `===` on two numbers. -/
  numberEq : Float64 → Float64 → Bool
  /-- The function `camelCaseToKebab` of this package. -/
  camelCaseToKebab : String → String
  /-- The function `oneWayFindAll` of this package: the paths of the
  `[[path]]` markers of a template, in order. -/
  oneWayFindAll : String → List String

/-! ## Package strconv -/

/-- The function `strconv.ParseBool`. -/
def parseBool (str : String) : Bool × Option ParseErr :=
  match str with
  | "1" | "t" | "T" | "TRUE" | "true" | "True" => (true, none)
  | "0" | "f" | "F" | "FALSE" | "false" | "False" => (false, none)
  | _ => (false, some .ErrSyntax)

/-- The digit loop of `strconv.ParseUint` for base 10: `n` is the value read so
far, `maxVal` is `1<<bitSize - 1`. -/
def parseUintLoop (maxVal : Nat) : List Char → Nat → Nat × Option ParseErr
  | [], n => (n, none)
  | c :: cs, n =>
    if '0' ≤ c ∧ c ≤ '9' then
      let d := c.toNat - '0'.toNat
      -- cutoff = maxUint64/10 + 1
      if n ≥ (2 ^ 64 - 1) / 10 + 1 then (maxVal, some .ErrRange)
      else
        let n10 := (n * 10) % 2 ^ 64
        let n1 := (n10 + d) % 2 ^ 64
        if n1 < n10 ∨ n1 > maxVal then (maxVal, some .ErrRange)
        else parseUintLoop maxVal cs n1
    else (0, some .ErrSyntax)

/-- The function `strconv.ParseUint(s, 10, bitSize)`, for `bitSize` 16, 32 or 64. -/
def parseUint (s : String) (bitSize : Nat) : Nat × Option ParseErr :=
  if s = "" then (0, some .ErrSyntax)
  else parseUintLoop (2 ^ bitSize - 1) s.data 0

/-- The function `strconv.ParseInt(s, 10, bitSize)`, for `bitSize` 16, 32 or 64. -/
def parseInt (s : String) (bitSize : Nat) : Int × Option ParseErr :=
  match s.data with
  | [] => (0, some .ErrSyntax)
  | c :: cs =>
    let neg := c = '-'
    let rest := if c = '+' ∨ c = '-' then String.mk cs else s
    match parseUint rest bitSize with
    | (_, some .ErrSyntax) => (0, some .ErrSyntax)
    | (un, _) =>
      let cutoff := 2 ^ (bitSize - 1)
      if ¬ neg ∧ un ≥ cutoff then (Int.ofNat cutoff - 1, some .ErrRange)
      else if neg ∧ un > cutoff then (- Int.ofNat cutoff, some .ErrRange)
      else (if neg then - Int.ofNat un else Int.ofNat un, none)

/-! ## Type coercion -/

/-- The method `(*js.Object).Interface`: the Go value a JavaScript value is
internalised to. -/
def JSVal.Interface : JSVal → GoVal
  | .undefined => .jsObject .undefined
  | .null => .nil
  | .boolean b => .bool b
  | .number x => .float64 x
  | .string s => .string s
  | .ref (.node id) => .jsObject (.ref (.node id))
  | .ref (.obj id) => .composite (.ref (.obj id))
  | .proxy id => .composite (.proxy id)

/-- The function `convertJSType`: the pair `(val, err)` it returns, or the fault
of calling `Kind` on a nil `reflect.Type`. -/
def convertJSType (rt : Runtime) (t : Option ReflectType) (value : JSVal) :
    Except Fault (GoVal × Option ParseErr) :=
  let val := value.Interface
  match val with
  | .string valString =>
    match t with
    | none => .error .nilDereference
    | some t =>
      match t.Kind with
      | .String => .ok (.string valString, none)
      | .Bool => .ok (.bool (parseBool valString).1, (parseBool valString).2)
      | .Float32 => .ok (.float64 (rt.parseFloat valString 32).1, (rt.parseFloat valString 32).2)
      | .Float64 => .ok (.float64 (rt.parseFloat valString 64).1, (rt.parseFloat valString 64).2)
      | .Int => .ok (.int64 (parseInt valString 64).1, (parseInt valString 64).2)
      | .Int16 => .ok (.int64 (parseInt valString 16).1, (parseInt valString 16).2)
      | .Int32 => .ok (.int64 (parseInt valString 32).1, (parseInt valString 32).2)
      | .Int64 => .ok (.int64 (parseInt valString 64).1, (parseInt valString 64).2)
      | .Uint => .ok (.uint64 (parseUint valString 64).1, (parseUint valString 64).2)
      | .Uint16 => .ok (.uint64 (parseUint valString 16).1, (parseUint valString 16).2)
      | .Uint32 => .ok (.uint64 (parseUint valString 32).1, (parseUint valString 32).2)
      | .Uint64 => .ok (.uint64 (parseUint valString 64).1, (parseUint valString 64).2)
      | _ => .ok (.string valString, none)
  | _ => .ok (val, none)

/-- The Go slice expression `s[:n]`. -/
def sliceTo (s : String) (n : Nat) : Except Fault String :=
  if n ≤ s.length then .ok (String.mk (s.data.take n)) else .error .sliceBounds

/-- The Go slice expression `s[n:]`. -/
def sliceFrom (s : String) (n : Nat) : Except Fault String :=
  if n ≤ s.length then .ok (String.mk (s.data.drop n)) else .error .sliceBounds

/-- The Go slice expression `s[len(s)-k:]`: the subtraction is on `int`, so a
string shorter than `k` gives a negative bound and a fault. -/
def sliceLast (s : String) (k : Nat) : Except Fault String :=
  if k ≤ s.length then sliceFrom s (s.length - k) else .error .sliceBounds

/-- The function `isDataBindingExpression`.  The length test comes first, so the
four slice expressions are within bounds and are written as the sub-lists they
denote. -/
def isDataBindingExpression (val : JSVal) : Bool :=
  match val.Interface with
  | .string valString =>
    if valString.length < 4 then false
    else
      (String.mk (valString.data.take 2) == "\x7b\x7b" &&
          String.mk (valString.data.drop (valString.length - 2)) == "\x7d\x7d") ||
        (String.mk (valString.data.take 2) == "||" &&
          String.mk (valString.data.drop (valString.length - 2)) == "||")
  | _ => false

/-! ## Paths -/

/-- A Go string (see the conventions above). -/
abbrev GoString := String

/-- Modelled from the spec: the type `attrPath` of this package, "an ordered,
non-empty sequence of field names (a dotted string externally)". -/
abbrev attrPath := List String

/-- The segments of a dotted string, as `strings.Split(s, ".")` yields them. -/
def splitDot : List Char → List (List Char)
  | [] => [[]]
  | c :: cs =>
    if c = '.' then [] :: splitDot cs
    else
      match splitDot cs with
      | [] => [[c]]
      | seg :: segs => (c :: seg) :: segs

/-- The segments joined by dots, as `strings.Join(segs, ".")` yields them. -/
def joinDot : List (List Char) → List Char
  | [] => []
  | [seg] => seg
  | seg :: seg' :: segs => seg ++ '.' :: joinDot (seg' :: segs)

/-- Modelled from the spec: the function `newAttrPath` of this package,
`parse(text) -> Path`, splitting the dotted string at its dots. -/
def newAttrPath (str : String) : attrPath :=
  (splitDot str.data).map String.mk

/-- Modelled from the spec: the method `attrPath.String` of this package,
`Path.toString() -> text`, the dotted string of a path. -/
def attrPath.String (ap : attrPath) : String :=
  ⟨joinDot (ap.map fun seg => seg.data)⟩

/-- The Go slice expression `ap[:len(ap)-1]` on a path. -/
def attrPath.init (ap : attrPath) : Except Fault attrPath :=
  if ap.length = 0 then .error .sliceBounds else .ok ap.dropLast

/-! ## State -/

/-- A JavaScript `Proxy` made by `newProxy`, given by the two variables its
handler closes over. -/
structure ProxyObj where
  subObj : JSVal
  pathPrefix : attrPath
  deriving DecidableEq, Repr

/-- The struct `oneWayDataBinding`. -/
structure oneWayDataBinding where
  Str : String
  Attribute : JSVal
  Paths : List attrPath
  deriving DecidableEq, Repr

/-- The `MutationObserver` made by `newMutationObserver`, given by the variables
its callback closes over. -/
structure Observer where
  proxy : JSVal
  fieldType : Option ReflectType
  attr : JSVal
  deriving DecidableEq, Repr

/-- The struct `twoWayDataBinding`. -/
structure twoWayDataBinding where
  Attribute : JSVal
  Path : attrPath
  MutationObserver : Observer
  deriving DecidableEq, Repr

/-- A JavaScript function made by `js.MakeFunc` and handed to the host as an
event listener, given by the variables it closes over. -/
inductive Listener
  | input (proxy : JSVal) (attr : JSVal) (ownerElement : JSVal) (path : attrPath)
  | method (methodName : String)
  deriving DecidableEq, Repr

/-- An argument of `consoleError`. -/
inductive LogArg
  | str (s : String)
  | js (v : JSVal)
  | err (e : ParseErr)
  deriving DecidableEq, Repr

/-- A call into the host. -/
inductive HostCall
  | consoleError (args : List LogArg)
  | setAttribute (target : JSVal) (name : String) (value : JSVal)
  | addEventListener (target : JSVal) (eventName : String) (handler : Listener)
  | observe (observer : Observer) (target : JSVal) (attributeFilter : String)
  deriving DecidableEq, Repr

/-- The mutable state: the JavaScript heap, the proxies made so far, the calls
made into the host so far, and the maps of the `Element` struct. -/
structure State where
  props : Ref → String → JSVal
  proxies : List ProxyObj
  calls : List HostCall
  Children : List (String × JSVal)
  oneWayDataBindings : List (String × List oneWayDataBinding)
  twoWayDataBindings : List (String × twoWayDataBinding)

/-- What is fixed for one element instance. -/
structure Env where
  rt : Runtime
  /-- Modelled from the spec: `path.GetField(t)` for the struct type `t` of the
  custom element, `Path.resolveFieldType(staticShape) -> type, ok`. -/
  getField : attrPath → Option StructField
  /-- The JavaScript object of the custom element struct:
  `js.InternalObject(customObject.Interface())`. -/
  customObject : JSVal
  /-- The field `Element.Object`: the host element. -/
  Object : JSVal
  /-- The fields of the struct: `customElementFields` of `Define`. -/
  customElementFields : List StructField
  /-- Whether `ObjValue.MethodByName(name).IsValid()`. -/
  methodIsValid : String → Bool

/-- A Go map read `m[k]`, with its `ok`. -/
def mapGet {α : Type} : List (String × α) → String → Option α
  | [], _ => none
  | (k', v) :: rest, k => if k' = k then some v else mapGet rest k

/-- A Go map write `m[k] = v`. -/
def mapSet {α : Type} : List (String × α) → String → α → List (String × α)
  | [], k, v => [(k, v)]
  | (k', v') :: rest, k, v =>
    if k' = k then (k, v) :: rest else (k', v') :: mapSet rest k v

/-- The function `consoleError`. -/
def consoleError (st : State) (args : List LogArg) : State :=
  { st with calls := st.calls ++ [.consoleError args] }

/-- A method call on a DOM node; on anything else it is a `TypeError`. -/
def hostCall (st : State) (target : JSVal) (call : HostCall) : Except Fault State :=
  match target with
  | .ref (.node _) => .ok { st with calls := st.calls ++ [call] }
  | _ => .error .typeError

/-- The method `(*js.Object).String`: JavaScript `String(v)`. -/
def JSVal.String (rt : Runtime) : JSVal → String
  | .undefined => "undefined"
  | .null => "null"
  | .boolean true => "true"
  | .boolean false => "false"
  | .number x => rt.numberToString x
  | .string s => s
  | o => rt.objectToString o

/-- Externalisation of a Go `interface{}` handed to `(*js.Object).Set`. -/
def externalize (rt : Runtime) : GoVal → JSVal
  | .nil => .null
  | .bool b => .boolean b
  | .string s => .string s
  | .float64 x => .number x
  | .int64 i => .number (rt.int64ToNumber i)
  | .uint64 u => .number (rt.uint64ToNumber u)
  | .jsObject o => o
  | .composite o => o

/-! ## Reading and writing JavaScript objects -/

/-- The method `(*js.Object).Get`, with a bound on the nesting of getters: a
property of `undefined` or `null` is a `TypeError`; a field of the host element
is answered by the getter that `Define` puts on its prototype,
`this.Get("__internal_object__").Get(field.Name)`; a property of a proxy is
answered by the `get` handler of `newProxy`. -/
def jsGetFuel (env : Env) (st : State) : Nat → JSVal → String → Except Fault JSVal
  | 0, _, _ => .error .stackOverflow
  | n + 1, o, name =>
    match o with
    | .undefined => .error .typeError
    | .null => .error .typeError
    | .ref r =>
      if o = env.Object ∧ name ∈ env.customElementFields.map (fun field => field.Name) then
        jsGetFuel env st n (st.props r "__internal_object__") name
      else .ok (st.props r name)
    | .proxy id =>
      match st.proxies[id]? with
      | none => .error .typeError
      | some px =>
        -- the "get" handler of newProxy
        if name = "__internal_object__" ∨ name = "$val" then .ok o
        else jsGetFuel env st n px.subObj name
    | _ => .ok .undefined

/-- The method `(*js.Object).Get`. -/
def jsGet (env : Env) (st : State) (o : JSVal) (name : String) : Except Fault JSVal :=
  jsGetFuel env st (st.proxies.length + 2) o name

/-- The method `(*js.Object).Set` on a DOM node of the shadow tree.  The browser
hands out nodes, never proxies: a store to anything that is not an object
reference is a `TypeError`.  The host element itself, whose fields have the
setters of `Define`, is no node of its own shadow tree. -/
def domSet (st : State) (o : JSVal) (name : String) (v : JSVal) : Except Fault State :=
  match o with
  | .ref r =>
    .ok { st with props := fun r' name' => if r' = r ∧ name' = name then v else st.props r' name' }
  | _ => .error .typeError

/-- Modelled from the spec: the method `attrPath.Get` of this package,
`Path.get(root)`, which navigates each segment in order; where an intermediate
value is absent the failure is not fatal and the value is `undefined`. -/
def attrPath.Get (env : Env) (st : State) : attrPath → JSVal → Except Fault JSVal
  | [], obj => .ok obj
  | seg :: rest, obj =>
    match obj with
    | .undefined => .ok .undefined
    | .null => .ok .undefined
    | _ => do
      let v ← jsGet env st obj seg
      attrPath.Get env st rest v

/-- Modelled from the spec: the method `attrPath.Set` of this package,
`Path.set(root, value)`, which navigates each segment but the last in order and
stores into the last; where an intermediate value is absent the failure is not
fatal and nothing is stored.  The store itself is the parameter `set`. -/
def attrPath.Set (env : Env) (set : State → JSVal → GoString → JSVal → Except Fault State)
    (st : State) : attrPath → JSVal → JSVal → Except Fault State
  | [], _, _ => .ok st
  | seg :: rest, obj, v =>
    match obj with
    | .undefined => .ok st
    | .null => .ok st
    | _ =>
      match rest with
      | [] => set st obj seg v
      | _ :: _ => do
        let o ← jsGet env st obj seg
        attrPath.Set env set st rest o v

/-- The function `strings.Replace(s, old, new, -1)` for a non-empty `old`, on
the characters still to read: `skip` counts the characters of a match that are
still to drop. -/
def replaceFrom (old new : List Char) : Nat → List Char → List Char
  | _, [] => []
  | skip + 1, _ :: cs => replaceFrom old new skip cs
  | 0, c :: cs =>
    if old.isPrefixOf (c :: cs) then new ++ replaceFrom old new (old.length - 1) cs
    else c :: replaceFrom old new 0 cs

/-- The function `strings.Replace(s, old, new, -1)`.  For an empty `old` Go puts
`new` before every rune and at the end. -/
def stringsReplace (s old new : String) : String :=
  if old.data = [] then ⟨new.data ++ s.data.flatMap (fun c => c :: new.data)⟩
  else ⟨replaceFrom old.data new.data 0 s.data⟩

/-! ## Bindings -/

/-- The value that `oneWayDataBinding.SetAttr` renders: the template with the
marker of each path replaced in turn. -/
def oneWayDataBinding.render (env : Env) (st : State) (obj : JSVal) :
    List attrPath → String → Except Fault String
  | [], value => .ok value
  | path :: paths, value => do
    let fieldValue ← attrPath.Get env st path obj
    oneWayDataBinding.render env st obj paths
      (stringsReplace value ("[[" ++ attrPath.String path ++ "]]") (fieldValue.String env.rt))

/-- The method `oneWayDataBinding.SetAttr`. -/
def oneWayDataBinding.SetAttr (env : Env) (db : oneWayDataBinding) (st : State)
    (obj : JSVal) : Except Fault State := do
  let value ← oneWayDataBinding.render env st obj db.Paths db.Str
  let attrValue ← jsGet env st db.Attribute "value"
  if attrValue ≠ .undefined then
    -- if it's an attribute
    let st ← domSet st db.Attribute "value" (.string value)
    -- if it is an input node, also set the property
    let ownerElement ← jsGet env st db.Attribute "ownerElement"
    let nodeName ← jsGet env st ownerElement "nodeName"
    if nodeName.String env.rt = "INPUT" then
      let ownerElement ← jsGet env st db.Attribute "ownerElement"
      let name ← jsGet env st db.Attribute "name"
      domSet st ownerElement (name.String env.rt) (.string value)
    else pure st
  else
    -- if it's an text node
    domSet st db.Attribute "data" (.string value)

/-- The method `twoWayDataBinding.SetAttr`. -/
def twoWayDataBinding.SetAttr (env : Env) (db : twoWayDataBinding) (st : State)
    (obj : JSVal) : Except Fault State := do
  let value ← attrPath.Get env st db.Path obj
  let attrValue ← jsGet env st db.Attribute "value"
  if attrValue.String env.rt ≠ value.String env.rt then
    let st ← domSet st db.Attribute "value" value
    -- if it is an input node, also set the property
    let ownerElement ← jsGet env st db.Attribute "ownerElement"
    let nodeName ← jsGet env st ownerElement "nodeName"
    if nodeName.String env.rt = "INPUT" then
      let ownerElement ← jsGet env st db.Attribute "ownerElement"
      let name ← jsGet env st db.Attribute "name"
      domSet st ownerElement (name.String env.rt) value
    else pure st
  else pure st

/-- The loop `for _, db := range dbs { db.SetAttr(obj) }`. -/
def setAttrAll (env : Env) (obj : JSVal) : List oneWayDataBinding → State → Except Fault State
  | [], st => .ok st
  | db :: dbs, st => do
    let st ← db.SetAttr env st obj
    setAttrAll env obj dbs st

/-! ## The interception proxy -/

/-- The "set" handler of `newProxy`, for the proxy `px`, called with the property
name `attributeName` and the raw value `value` (`arguments[1]` and
`arguments[2]`).  The store `subObj.Set` is the parameter `set`.  It returns
the handler's result and the new state.

The path `append(pathPrefix, attributeName)` is taken as a value, as all paths
of this state are.  For the proxy of a nested object Go's `append` also writes
`attributeName` into the array that `pathPrefix` shares with the binding path
it was cut from; that array is followed in the section on the arrays behind the
paths, and is no part of this state. -/
def proxySet (env : Env) (set : State → JSVal → String → JSVal → Except Fault State)
    (px : ProxyObj) (attributeName : String) (value : JSVal) (st : State) :
    Except Fault (Bool × State) :=
  if isDataBindingExpression value then .ok (true, st)
  else
    let path : attrPath := px.pathPrefix ++ [attributeName]
    match env.getField path with
    -- field doesn't exist
    | none => .ok (true, st)
    | some field =>
      match convertJSType env.rt (some field.Type_) value with
      | .error f => .error f
      | .ok (_, some err) =>
        .ok (true, consoleError st
          [.str "Error converting value in setting the property", .str (attrPath.String path),
            .str ": (", .js value, .str ")", .err err])
      | .ok (convertedValue, none) => do
        let st ← set st px.subObj attributeName (externalize env.rt convertedValue)
        -- if it's exported and isn't a subproperty set also the tag attribute
        let st ←
          (if px.pathPrefix.length = 0 ∧ field.PkgPath = "" then do
            let element ← jsGet env st px.subObj "Element"
            let target ← jsGet env st element "Object"
            hostCall st target
              (.setAttribute target (env.rt.camelCaseToKebab attributeName) value)
          else pure st)
        -- sets binded attributes of the children in template
        let st ←
          (match mapGet st.oneWayDataBindings (attrPath.String path) with
          | some dbs => setAttrAll env env.customObject dbs st
          | none => pure st)
        let st ←
          (match mapGet st.twoWayDataBindings (attrPath.String path) with
          | some db => db.SetAttr env st env.customObject
          | none => pure st)
        pure (true, st)

/-- The method `(*js.Object).Set`, with a bound on the nesting of proxies: a
store into a proxy runs its "set" handler. -/
def jsSetFuel (env : Env) : Nat → State → JSVal → String → JSVal → Except Fault State
  | 0, _, _, _, _ => .error .stackOverflow
  | n + 1, st, o, name, v =>
    match o with
    | .ref r =>
      .ok { st with props := fun r' name' => if r' = r ∧ name' = name then v else st.props r' name' }
    | .proxy id =>
      match st.proxies[id]? with
      | none => .error .typeError
      | some px => (proxySet env (jsSetFuel env n) px name v st).map Prod.snd
    | _ => .error .typeError

/-- The method `(*js.Object).Set`. -/
def jsSet (env : Env) (st : State) (o : JSVal) (name : String) (v : JSVal) :
    Except Fault State :=
  jsSetFuel env (st.proxies.length + 1) st o name v

/-- The "set" handler of the proxy `px` as the JavaScript engine runs it. -/
def proxySetHandler (env : Env) (px : ProxyObj) (attributeName : String) (value : JSVal)
    (st : State) : Except Fault (Bool × State) :=
  proxySet env (jsSet env) px attributeName value st

/-- The function `newProxy(customObject, pathPrefix)`: the new proxy and the
state that holds it.  `new Proxy(subObj, handler)` is a `TypeError` when
`subObj` is not an object. -/
def newProxy (env : Env) (st : State) ( pathPrefix : attrPath) : Except Fault (JSVal × State) := do
  let subObj ←
    (if pathPrefix.length > 0 then attrPath.Get env st pathPrefix env.customObject
    else pure env.customObject)
  match subObj with
  | .ref _ =>
    pure (.proxy st.proxies.length,
      { st with proxies := st.proxies ++ [{ subObj := subObj, pathPrefix := pathPrefix }] })
  | .proxy _ =>
    pure (.proxy st.proxies.length,
      { st with proxies := st.proxies ++ [{ subObj := subObj, pathPrefix := pathPrefix }] })
  | _ => .error .typeError

/-! ## DOM-to-model sync -/

/-- JavaScript `===`. -/
def jsStrictEq (rt : Runtime) : JSVal → JSVal → Bool
  | .number x, .number y => rt.numberEq x y
  | a, b => a == b

/-- The Go comparison `x == t` of a `*js.Object` `x` with an `interface{}` `t`:
they are equal when the dynamic type of `t` is `*js.Object` and the two
pointers are equal. -/
def jsObjectEqInterface (rt : Runtime) (x : JSVal) (t : GoVal) : Bool :=
  match t with
  | .jsObject y => jsStrictEq rt x y
  | _ => false

/-- The callback of the `MutationObserver` that `newMutationObserver` makes. -/
def mutationObserverHandler (env : Env) (obs : Observer) (st : State) : Except Fault State := do
  let newValue ← jsGet env st obs.attr "value"
  let attrPathValue ← jsGet env st obs.attr "__attr_path__"
  let path := newAttrPath (attrPathValue.String env.rt)
  match convertJSType env.rt obs.fieldType newValue with
  | .error f => .error f
  | .ok (_, some err) =>
    .ok (consoleError st
      [.str "Error converting value in setting the property", .str (attrPath.String path),
        .str ": (", .js newValue, .str ")", .err err])
  | .ok (convertedValue, none) => do
    let current ← attrPath.Get env st path obs.proxy
    if ¬ jsObjectEqInterface env.rt current convertedValue then
      attrPath.Set env (jsSet env) st path obs.proxy (externalize env.rt convertedValue)
    else pure st

/-- The function `newMutationObserver`: the observer and the new state. -/
def newMutationObserver (env : Env) (st : State) (proxy : JSVal)
    (fieldType : Option ReflectType) (attr : JSVal) (path : attrPath) :
    Except Fault (Observer × State) := do
  let st ← domSet st attr "__attr_path__" (.string (attrPath.String path))
  let mutationObserver : Observer := { proxy := proxy, fieldType := fieldType, attr := attr }
  let ownerElement ← jsGet env st attr "ownerElement"
  let name ← jsGet env st attr "name"
  let st ← hostCall st ownerElement
    (.observe mutationObserver ownerElement (name.String env.rt))
  pure (mutationObserver, st)

/-- The handler that `addInputListener` registers. -/
def inputListenerHandler (env : Env) (proxy attr ownerElement : JSVal) (path : attrPath)
    (st : State) : Except Fault State := do
  let attrName ← jsGet env st attr "name"
  let v ← jsGet env st ownerElement (attrName.String env.rt)
  attrPath.Set env (jsSet env) st path proxy v

/-- The function `addInputListener`. -/
def addInputListener (env : Env) (st : State) (proxy : JSVal) (attr : JSVal)
    (path : attrPath) : Except Fault State := do
  let ownerElement ← jsGet env st attr "ownerElement"
  let handler := Listener.input proxy attr ownerElement path
  let st ← hostCall st ownerElement (.addEventListener ownerElement "change" handler)
  hostCall st ownerElement (.addEventListener ownerElement "input" handler)

/-! ## The binding registry -/

/-- The loops of `subpropertyProxyAdded` over the keys of a map. -/
def parentAmongKeys (subpropertyPath : attrPath) : List String → Except Fault Bool
  | [] => .ok false
  | p :: ps => do
    let subPath ← attrPath.init (newAttrPath p)
    if attrPath.String subPath = attrPath.String subpropertyPath then pure true
    else parentAmongKeys subpropertyPath ps

/-- The method `Element.subpropertyProxyAdded`. -/
def subpropertyProxyAdded (st : State) (subpropertyPath : attrPath) : Except Fault Bool := do
  let found ← parentAmongKeys subpropertyPath (st.oneWayDataBindings.map Prod.fst)
  if found then pure true
  else parentAmongKeys subpropertyPath (st.twoWayDataBindings.map Prod.fst)

/-- The method `Element.subpropertyProxySet`. -/
def subpropertyProxySet (env : Env) (st : State) (bindedPath : attrPath) :
    Except Fault State := do
  let subpropertyPath ← attrPath.init bindedPath
  if subpropertyPath.length > 0 then
    let added ← subpropertyProxyAdded st subpropertyPath
    if ¬ added then
      let (proxy, st) ← newProxy env st subpropertyPath
      attrPath.Set env (jsSet env) st subpropertyPath env.customObject proxy
    else pure st
  else pure st

/-- The second loop of `addOneWay`, over the paths still to bind. -/
def addOneWayLoop (env : Env) (obj : JSVal) (value : String) (bindedPaths : List attrPath) :
    List attrPath → State → Except Fault State
  | [], st => .ok st
  | bindedPath :: rest, st => do
    let st ← subpropertyProxySet env st bindedPath
    let db : oneWayDataBinding := { Str := value, Attribute := obj, Paths := bindedPaths }
    let key := attrPath.String bindedPath
    let st := { st with
      oneWayDataBindings :=
        mapSet st.oneWayDataBindings key ((mapGet st.oneWayDataBindings key).getD [] ++ [db]) }
    let st ← db.SetAttr env st env.Object
    addOneWayLoop env obj value bindedPaths rest st

/-- The method `Element.addOneWay`. -/
def addOneWay (env : Env) (st : State) (obj : JSVal) (value : String) : Except Fault State :=
  let bindedPaths := (env.rt.oneWayFindAll value).map newAttrPath
  addOneWayLoop env obj value bindedPaths bindedPaths st

/-- The Go slice expression `s[lo:hi]`, the upper bound computed on `int`. -/
def sliceBetween (s : String) (lo : Nat) (hi : Int) : Except Fault String :=
  if (lo : Int) ≤ hi ∧ hi ≤ (s.length : Int) then .ok ⟨(s.data.take hi.toNat).drop lo⟩
  else .error .sliceBounds

/-- The method `Element.addTwoWay`. -/
def addTwoWay (env : Env) (st : State) (obj : JSVal) (value : String) : Except Fault State := do
  -- twoWayDataBinding, obj is attribute DOM object and value is in {{}}
  let objValue ← jsGet env st obj "value"
  if objValue = .undefined then pure st
  else
    let head ← sliceTo value 2
    if head ≠ "\x7b\x7b" then pure st
    else
      let tail ← sliceLast value 2
      if tail ≠ "\x7d\x7d" then pure st
      else
        let inner ← sliceBetween value 2 ((value.length : Int) - 2)
        let path := newAttrPath inner
        let st :=
          if (mapGet st.twoWayDataBindings (attrPath.String path)).isSome then
            consoleError st
              [.str "data binding", .str (attrPath.String path), .str "set more than once"]
          else st
        let st ← subpropertyProxySet env st path
        let field := env.getField path
        let st :=
          if field.isNone then
            consoleError st
              [.str "Error: two way data binding path:", .str (attrPath.String path),
                .str "field doesn't exist"]
          else st
        -- the zero StructField has a nil Type
        let fieldType := field.map (fun f => f.Type_)
        let ownerElement ← jsGet env st obj "ownerElement"
        let nodeName ← jsGet env st ownerElement "nodeName"
        let st ←
          (if nodeName.String env.rt = "INPUT" then do
            let proxy ← jsGet env st env.Object "__internal_object__"
            addInputListener env st proxy obj path
          else pure st)
        let proxy ← jsGet env st env.Object "__internal_object__"
        let (mutationObserver, st) ← newMutationObserver env st proxy fieldType obj path
        let db : twoWayDataBinding :=
          { Attribute := obj, Path := path, MutationObserver := mutationObserver }
        let st := { st with
          twoWayDataBindings := mapSet st.twoWayDataBindings (attrPath.String path) db }
        db.SetAttr env st env.Object

/-- The method `Element.addEventListener`. -/
def addEventListener (env : Env) (st : State) (attr : JSVal) : Except Fault State := do
  let name ← jsGet env st attr "name"
  let eventName ← sliceFrom (name.String env.rt) 3
  let methodName ← jsGet env st attr "value"
  if ¬ env.methodIsValid (methodName.String env.rt) then
    pure (consoleError st
      [.str "Error on event listener", .str eventName, .str "binding, method",
        .str (methodName.String env.rt), .str "doesn't exist"])
  else
    let ownerElement ← jsGet env st attr "ownerElement"
    hostCall st ownerElement
      (.addEventListener ownerElement eventName (.method (methodName.String env.rt)))

/-! ## The template scanner -/

/-- The part of the DOM that `scanElement` walks: an element, its `attributes`
(`none` when the property is `undefined`), its `childNodes` and its `children`. -/
inductive DomTree
  | mk (element : JSVal) (attributes : Option (List JSVal)) (childNodes : List JSVal)
      (children : List DomTree)

/-- The first loop of `scanElement`, over the attributes still to classify. -/
def scanAttributes (env : Env) (element : JSVal) : List JSVal → State → Except Fault State
  | [], st => .ok st
  | attr :: rest, st => do
    let name ← jsGet env st attr "name"
    -- collect children with id
    if name.String env.rt = "id" then
      let value ← jsGet env st attr "value"
      scanAttributes env element rest
        { st with Children := mapSet st.Children (value.String env.rt) element }
    else
      let value ← jsGet env st attr "value"
      let st ← addOneWay env st attr (value.String env.rt)
      let value ← jsGet env st attr "value"
      let st ← addTwoWay env st attr (value.String env.rt)
      let name ← jsGet env st attr "name"
      let head ← sliceTo (name.String env.rt) 3
      let st ← (if head = "on-" then addEventListener env st attr else pure st)
      scanAttributes env element rest st

/-- The second loop of `scanElement`, over the child nodes still to look at. -/
def scanTextNodes (env : Env) : List JSVal → State → Except Fault State
  | [], st => .ok st
  | child :: rest, st => do
    let nodeName ← jsGet env st child "nodeName"
    if nodeName.String env.rt ≠ "#text" then scanTextNodes env rest st
    else
      let data ← jsGet env st child "data"
      let st ← addOneWay env st child (data.String env.rt)
      scanTextNodes env rest st

mutual
/-- The method `Element.scanElement`. -/
def scanElement (env : Env) : DomTree → State → Except Fault State
  | .mk element attributes childNodes children, st => do
    -- find data binded attributes
    let st ←
      (match attributes with
      | some elementAttributes => scanAttributes env element elementAttributes st
      | none => pure st)
    -- find textChild with data binded value
    let st ← scanTextNodes env childNodes st
    -- scan children
    scanChildren env children st
termination_by structural tree => tree
/-- The third loop of `scanElement`, over the children still to scan. -/
def scanChildren (env : Env) : List DomTree → State → Except Fault State
  | [], st => .ok st
  | child :: rest, st => do
    let st ← scanElement env child st
    scanChildren env rest st
termination_by structural trees => trees
end

/-! ## Registration of a custom element -/

/-- What `reflect` reports on the type `Out(0).Elem()`: `FieldByNameElement` is
the result of `FieldByName("Element")`, which panics unless the kind is
`Struct`. -/
structure ElemTypeInfo where
  Kind : Kind
  Name : String
  FieldByNameElement : Option StructField
  deriving DecidableEq, Repr

/-- What `reflect` reports on the type `Out(i)`: `Elem` panics unless the kind
is `Array`, `Chan`, `Map`, `Ptr` or `Slice`. -/
structure OutTypeInfo where
  Kind : Kind
  Elem : Option ElemTypeInfo
  deriving DecidableEq, Repr

/-- What `reflect` reports on the value `f` handed to `Define`: the kind of
`reflect.ValueOf(f)` and, for a function, its parameter count and results. -/
structure FuncInfo where
  Kind : Kind
  NumIn : Nat
  Out : List OutTypeInfo
  deriving DecidableEq, Repr

/-- The function `testConstructorFunction`: the `error` it returns (`none` is
`nil`), or the panic of package `reflect`. -/
def testConstructorFunction (rt : Runtime) (f : FuncInfo) : Except Fault (Option String) :=
  if f.Kind ≠ .Func then
    .ok (some "Define Error: provided f parameter is not a function (it must be func()*YourElemType)")
  else if f.Out.length ≠ 1 then
    .ok (some "Define Error: provided function doesn't have one result value (it must be func()*YourElemType)")
  else
    match f.Out with
    | [] => .error .reflectPanic
    | out :: _ =>
      if out.Kind ≠ .Ptr then
        .ok (some "Define Error: provided function doesn't return an pointer (it must be func()*YourElemType)")
      else
        match out.Elem with
        | none => .error .reflectPanic
        | some elemType =>
          if elemType.Kind ≠ .Struct then .error .reflectPanic
          else if
            (match elemType.FieldByNameElement with
              | none => true
              | some elemStruct => elemStruct.Type_.Name ≠ "Element") then
            .ok (some "Define Error: provided function doesn't return an struct that has embedded golymer.Element struct (it must be func()*YourElemType)")
          else
            let elementName := rt.camelCaseToKebab elemType.Name
            if ¬ ('-' ∈ elementName.data) then
              .ok (some "Define Error: name of the struct type MUST have two words in camel case eg. MyElement will be converted to tag name my-element (it must be func()*YourElemType)")
            else .ok none

/-! ## A sample element

The element type `MyElement` with the fields `Name string`, `Count int` and
`hidden string` beside the embedded `Element`, and a shadow tree with an
`INPUT` element that carries a few attributes, and a text node. -/

/-- Modelled from the spec: the function `camelCaseToKebab` of this package,
which converts a name "to its external (kebab) spelling", as in
`YourElemType -> your-elem-type`; `first` says whether the character is the
first one. -/
def camelCaseToKebabFrom : Bool → List Char → List Char
  | _, [] => []
  | first, c :: cs =>
    if c.isUpper then
      (if first then [c.toLower] else ['-', c.toLower]) ++ camelCaseToKebabFrom false cs
    else c :: camelCaseToKebabFrom false cs

/-- Where `oneWayFindAllFrom` stands in the text: outside a marker, after one
`[`, inside a marker (with the characters read so far, last one first), or
inside a marker after one `]`. -/
inductive MarkerScan
  | outside
  | opening
  | inside (read : List Char)
  | closing (read : List Char)

/-- Modelled from the spec: the function `oneWayFindAll` of this package, which
finds the markers `[[path]]` that "may appear embedded anywhere inside an
attribute value or text-node content, possibly multiple times". -/
def oneWayFindAllFrom : MarkerScan → List Char → List String
  | _, [] => []
  | .outside, c :: cs =>
    if c = '[' then oneWayFindAllFrom .opening cs else oneWayFindAllFrom .outside cs
  | .opening, c :: cs =>
    if c = '[' then oneWayFindAllFrom (.inside []) cs else oneWayFindAllFrom .outside cs
  | .inside read, c :: cs =>
    if c = ']' then oneWayFindAllFrom (.closing read) cs
    else oneWayFindAllFrom (.inside (c :: read)) cs
  | .closing read, c :: cs =>
    if c = ']' then String.mk read.reverse :: oneWayFindAllFrom .outside cs
    else oneWayFindAllFrom (.inside (c :: ']' :: read)) cs

/-- A run time for the sample element: no floating-point text parses, and
numbers and objects print as fixed texts. -/
def sampleRuntime : Runtime where
  parseFloat := fun _ _ => (⟨0⟩, some .ErrSyntax)
  int64ToNumber := fun i => ⟨i.toNat⟩
  uint64ToNumber := fun u => ⟨u⟩
  numberToString := fun _ => "0"
  objectToString := fun _ => "[object Object]"
  numberEq := fun x y => x.bits == y.bits
  camelCaseToKebab := fun name => ⟨camelCaseToKebabFrom true name.data⟩
  oneWayFindAll := fun value => oneWayFindAllFrom .outside value.data

/-- The fields of `MyElement`. -/
def sampleFields : List StructField :=
  [ { Name := "Element", PkgPath := "", Type_ := { Kind := .Struct, Name := "Element" } },
    { Name := "Name", PkgPath := "", Type_ := { Kind := .String, Name := "string" } },
    { Name := "Count", PkgPath := "", Type_ := { Kind := .Int, Name := "int" } },
    { Name := "hidden", PkgPath := "main", Type_ := { Kind := .String, Name := "string" } } ]

/-- The sample element: `MyElement` as object 0, its embedded `Element` as
object 1, the host element as node 0. -/
def sampleEnv : Env where
  rt := sampleRuntime
  getField := fun path =>
    match path with
    | [name] => sampleFields.find? (fun field => field.Name == name)
    | _ => none
  customObject := .ref (.obj 0)
  Object := .ref (.node 0)
  customElementFields := sampleFields
  methodIsValid := fun name => name == "Clicked"

/-- The heap of the sample element: the model holds `Name = "abc"`, `Count = 0`
and `hidden = "h"`; node 1 is an `INPUT` element; nodes 2 to 6 and 8 are
attributes of it; node 7 is a text node. -/
def sampleProps : Ref → String → JSVal
  | .obj 0, "Element" => .ref (.obj 1)
  | .obj 0, "Name" => .string "abc"
  | .obj 0, "Count" => .number ⟨0⟩
  | .obj 0, "hidden" => .string "h"
  | .obj 1, "Object" => .ref (.node 0)
  | .node 0, "__internal_object__" => .proxy 0
  | .node 1, "nodeName" => .string "INPUT"
  | .node 2, "name" => .string "value"
  | .node 2, "value" => .string "abc"
  | .node 2, "ownerElement" => .ref (.node 1)
  | .node 2, "__attr_path__" => .string "Name"
  | .node 3, "name" => .string "x"
  | .node 3, "value" => .string ""
  | .node 3, "ownerElement" => .ref (.node 1)
  | .node 4, "name" => .string "title"
  | .node 4, "value" => .string "\x7b\x7bMissing\x7d\x7d"
  | .node 4, "ownerElement" => .ref (.node 1)
  | .node 5, "name" => .string "value"
  | .node 5, "value" => .string "\x7b\x7bName\x7d\x7d"
  | .node 5, "ownerElement" => .ref (.node 1)
  | .node 6, "name" => .string "placeholder"
  | .node 6, "value" => .string "\x7b\x7bName\x7d\x7d"
  | .node 6, "ownerElement" => .ref (.node 1)
  | .node 7, "nodeName" => .string "#text"
  | .node 7, "data" => .string "Hello [[Name]], [[Count]]"
  | .node 8, "name" => .string "x"
  | .node 8, "value" => .string "10"
  | .node 8, "ownerElement" => .ref (.node 1)
  | _, _ => .undefined

/-- The root proxy of the sample element, as `Define` makes it. -/
def sampleRootProxy : ProxyObj := { subObj := .ref (.obj 0), pathPrefix := [] }

/-- The state of the sample element after `ConnectedCallback` has made the maps
and before the scan. -/
def sampleState : State where
  props := sampleProps
  proxies := [sampleRootProxy]
  calls := []
  Children := []
  oneWayDataBindings := []
  twoWayDataBindings := []

/-- A function `func(x int) *MyElement`, as `reflect` reports on it. -/
def sampleConstructorWithParameter : FuncInfo where
  Kind := .Func
  NumIn := 1
  Out :=
    [ { Kind := .Ptr
        Elem := some
          { Kind := .Struct
            Name := "MyElement"
            FieldByNameElement := some
              { Name := "Element", PkgPath := "",
                Type_ := { Kind := .Struct, Name := "Element" } } } } ]

/-! ## Frames -/

/-- The state `st'` differs from `st` in the heap only. -/
def OnlyProps (st st' : State) : Prop :=
  st'.proxies = st.proxies ∧ st'.calls = st.calls ∧ st'.Children = st.Children ∧
    st'.oneWayDataBindings = st.oneWayDataBindings ∧
    st'.twoWayDataBindings = st.twoWayDataBindings

/-- The state `st'` has the maps of `st`, and the calls of `st` followed by
further calls. -/
def Grows (st st' : State) : Prop :=
  st'.Children = st.Children ∧ st'.oneWayDataBindings = st.oneWayDataBindings ∧
    st'.twoWayDataBindings = st.twoWayDataBindings ∧ st.calls <+: st'.calls

/-- The sample state after the store of `"Ada"` into the field `Name`. -/
def sampleStateAda : State :=
  { sampleState with
    props := fun r' name' =>
      if r' = .obj 0 ∧ name' = "Name" then .string "Ada" else sampleState.props r' name' }


/-! ## The arrays behind the paths

The state above keeps the paths of the bindings as values.  In Go an `attrPath`
is a slice, a window on an array that other slices may share.  This section
follows the array of one binding path through the three places that touch it:
`bindedPath := newAttrPath(path)` in `addOneWay`,
`subpropertyPath := bindedPath[:len(bindedPath)-1]` in `subpropertyProxySet`,
which `newProxy` keeps as `pathPrefix`, and `append(pathPrefix, attributeName)`
in the "set" handler. -/

/-- A Go slice of strings: the array it is a window on, by its place among the
arrays, its length and its capacity; the window starts at the first element of
the array. -/
structure GoSlice where
  array : Nat
  len : Nat
  cap : Nat
  deriving DecidableEq, Repr

/-- The elements of a slice. -/
def GoSlice.elems (arrays : List (List String)) (s : GoSlice) : attrPath :=
  (arrays.getD s.array []).take s.len

/-- A slice as `strings.Split` returns it: a new array that holds the segments,
with the length and the capacity equal. -/
def goSliceOf (arrays : List (List String)) (segs : List String) :
    GoSlice × List (List String) :=
  ({ array := arrays.length, len := segs.length, cap := segs.length }, arrays ++ [segs])

/-- The Go slice expression `s[:n]`, the bound computed on `int`: the same
array, and a fault when `n` is negative or beyond the capacity. -/
def GoSlice.upTo (s : GoSlice) (n : Int) : Except Fault GoSlice :=
  if 0 ≤ n ∧ n ≤ (s.cap : Int) then .ok { s with len := n.toNat } else .error .sliceBounds

/-- The Go builtin `append(s, x)`: where the capacity allows, `x` is written into
the array of `s` behind its last element; otherwise the elements are copied to
a new array (of the least capacity that holds them). -/
def goAppend (arrays : List (List String)) (s : GoSlice) (x : String) :
    GoSlice × List (List String) :=
  if s.len < s.cap then
    ({ s with len := s.len + 1 },
      arrays.set s.array ((arrays.getD s.array []).set s.len x))
  else
    ({ array := arrays.length, len := s.len + 1, cap := s.len + 1 },
      arrays ++ [s.elems arrays ++ [x]])

/-- The path of the binding of the template `[[Info.Title]]`, as `addOneWay`
makes it: `newAttrPath("Info.Title")`. -/
def sampleBindedPath : GoSlice × List (List String) :=
  goSliceOf [] (newAttrPath "Info.Title")

/-- The prefix of the root proxy, as `Define` makes it: `[]string{}`. -/
def sampleRootPrefix : GoSlice := { array := 1, len := 0, cap := 0 }

/-! ## Pre-split templates -/

/-- A piece of a pre-split template: a run of literal text, or the marker of a
path. -/
inductive Segment
  | static (text : String)
  | marker (path : String)
  deriving DecidableEq, Repr

/-- The text of the marker of a path: the path between two opening and two
closing square brackets. -/
def markerText (path : String) : List Char :=
  '[' :: '[' :: path.data ++ [']', ']']

/-- The template that a segment list is the split of. -/
def templateOfSegments : List Segment → List Char
  | [] => []
  | .static text :: segs => text.data ++ templateOfSegments segs
  | .marker path :: segs => markerText path ++ templateOfSegments segs

/-- The rendering of a pre-split segment list, as the design notes describe it:
the literal text is kept and each marker gives way to the current value of its
path, all markers at once. -/
def renderSegments (val : String → String) : List Segment → List Char
  | [] => []
  | .static text :: segs => text.data ++ renderSegments val segs
  | .marker path :: segs => (val path).data ++ renderSegments val segs

/-- The text of a segment list in which the markers of the paths in `done` have
given way to their values and the other markers still stand. -/
def expandSegments (val : String → String) (done : List String) : List Segment → List Char
  | [] => []
  | .static text :: segs => text.data ++ expandSegments val done segs
  | .marker path :: segs =>
    (if path ∈ done then (val path).data else markerText path) ++
      expandSegments val done segs

/-- The state of the sample element when the field `Name` holds the text of the
marker of `Count`. -/
def sampleStateMarker : State :=
  { sampleState with
    props := fun r' name' =>
      if r' = .obj 0 ∧ name' = "Name" then .string "[[Count]]" else sampleState.props r' name' }

/-! ## Lemmas -/

theorem bind_eq_ok {ε α β : Type} {x : Except ε α} {f : α → Except ε β} {b : β} :
    (x >>= f) = .ok b ↔ ∃ a, x = .ok a ∧ f a = .ok b := by
  cases x <;> simp [bind, Except.bind]

theorem pure_eq_ok {ε α : Type} {a b : α} : (pure a : Except ε α) = .ok b ↔ a = b := by
  simp [pure, Except.pure]

theorem OnlyProps.same (st : State) : OnlyProps st st := ⟨rfl, rfl, rfl, rfl, rfl⟩

theorem OnlyProps.andThen {a b c : State} (h1 : OnlyProps a b) (h2 : OnlyProps b c) :
    OnlyProps a c := by
  obtain ⟨h11, h12, h13, h14, h15⟩ := h1
  obtain ⟨h21, h22, h23, h24, h25⟩ := h2
  exact ⟨h21.trans h11, h22.trans h12, h23.trans h13, h24.trans h14, h25.trans h15⟩

theorem domSet_onlyProps {st st' : State} {o : JSVal} {name : String} {v : JSVal}
    (h : domSet st o name v = .ok st') : OnlyProps st st' := by
  unfold domSet at h
  split at h
  · cases h
    exact ⟨rfl, rfl, rfl, rfl, rfl⟩
  · cases h

theorem oneWay_SetAttr_onlyProps {env : Env} {db : oneWayDataBinding} {st st' : State}
    {obj : JSVal} (h : db.SetAttr env st obj = .ok st') : OnlyProps st st' := by
  unfold oneWayDataBinding.SetAttr at h
  simp only [bind_eq_ok] at h
  obtain ⟨value, -, attrValue, -, h⟩ := h
  split at h
  · simp only [bind_eq_ok] at h
    obtain ⟨st1, h1, ownerElement, -, nodeName, -, h⟩ := h
    have p1 := domSet_onlyProps h1
    split at h
    · simp only [bind_eq_ok] at h
      obtain ⟨ownerElement', -, name, -, h⟩ := h
      exact p1.andThen (domSet_onlyProps h)
    · cases h
      exact p1
  · exact domSet_onlyProps h

theorem twoWay_SetAttr_onlyProps {env : Env} {db : twoWayDataBinding} {st st' : State}
    {obj : JSVal} (h : db.SetAttr env st obj = .ok st') : OnlyProps st st' := by
  unfold twoWayDataBinding.SetAttr at h
  simp only [bind_eq_ok] at h
  obtain ⟨value, -, attrValue, -, h⟩ := h
  split at h
  · simp only [bind_eq_ok] at h
    obtain ⟨st1, h1, ownerElement, -, nodeName, -, h⟩ := h
    have p1 := domSet_onlyProps h1
    split at h
    · simp only [bind_eq_ok] at h
      obtain ⟨ownerElement', -, name, -, h⟩ := h
      exact p1.andThen (domSet_onlyProps h)
    · cases h
      exact p1
  · cases h
    exact OnlyProps.same _

theorem setAttrAll_onlyProps {env : Env} {obj : JSVal} (dbs : List oneWayDataBinding)
    {st st' : State} (h : setAttrAll env obj dbs st = .ok st') : OnlyProps st st' := by
  induction dbs generalizing st with
  | nil =>
    cases h
    exact OnlyProps.same _
  | cons db dbs ih =>
    simp only [setAttrAll, bind_eq_ok] at h
    obtain ⟨st1, h1, h2⟩ := h
    exact (oneWay_SetAttr_onlyProps h1).andThen (ih h2)


theorem exists_of_map_eq_ok {ε α β : Type} {x : Except ε α} {f : α → β} {b : β}
    (h : x.map f = .ok b) : ∃ a, x = .ok a ∧ f a = b := by
  cases x with
  | error e => cases h
  | ok a =>
    refine ⟨a, rfl, ?_⟩
    simpa [Except.map] using h

theorem hostCall_eq_ok {st st' : State} {target : JSVal} {call : HostCall}
    (h : hostCall st target call = .ok st') :
    st' = { st with calls := st.calls ++ [call] } := by
  unfold hostCall at h
  split at h
  · cases h
    rfl
  · cases h

/-- The steps of a proxy write that passes coercion: the store, the reflection
onto the attribute of the host element, the one-way bindings, the two-way
binding. -/
theorem proxySet_steps {env : Env}
    {set : State → JSVal → String → JSVal → Except Fault State} {px : ProxyObj}
    {attributeName : String} {value : JSVal} {st st' : State} {field : StructField}
    {convertedValue : GoVal} {b : Bool}
    (hexpr : isDataBindingExpression value = false)
    (hfield : env.getField (px.pathPrefix ++ [attributeName]) = some field)
    (hconv : convertJSType env.rt (some field.Type_) value = .ok (convertedValue, none))
    (hret : proxySet env set px attributeName value st = .ok (b, st')) :
    b = true ∧ ∃ st1 st2 st3,
      set st px.subObj attributeName (externalize env.rt convertedValue) = .ok st1 ∧
      (if px.pathPrefix.length = 0 ∧ field.PkgPath = "" then
          ∃ element target, jsGet env st1 px.subObj "Element" = .ok element ∧
            jsGet env st1 element "Object" = .ok target ∧
            hostCall st1 target
              (.setAttribute target (env.rt.camelCaseToKebab attributeName) value) = .ok st2
        else st2 = st1) ∧
      setAttrAll env env.customObject
        ((mapGet st2.oneWayDataBindings
          (attrPath.String (px.pathPrefix ++ [attributeName]))).getD []) st2 = .ok st3 ∧
      (match mapGet st3.twoWayDataBindings
          (attrPath.String (px.pathPrefix ++ [attributeName])) with
        | some db => db.SetAttr env st3 env.customObject = .ok st'
        | none => st' = st3) := by
  simp only [proxySet, hexpr, hfield, hconv, bind_eq_ok, Bool.false_eq_true, if_false] at hret
  obtain ⟨st1, h1, st2, h2, st3, h3, st4, h4, h5⟩ := hret
  rw [pure_eq_ok] at h5
  cases h5
  refine ⟨rfl, st1, st2, st3, h1, ?_, ?_, ?_⟩
  · split at h2
    · rename_i hc
      rw [if_pos hc]
      simp only [bind_eq_ok] at h2
      obtain ⟨element, he, target, ht, hc⟩ := h2
      exact ⟨element, target, he, ht, hc⟩
    · rename_i hc
      rw [if_neg hc]
      exact (pure_eq_ok.1 h2).symm
  · cases hdbs : mapGet st2.oneWayDataBindings
        (attrPath.String (px.pathPrefix ++ [attributeName])) with
    | none =>
      rw [hdbs] at h3
      have e : st2 = st3 := pure_eq_ok.1 h3
      rw [e]
      rfl
    | some dbs =>
      rw [hdbs] at h3
      exact h3
  · cases hdb : mapGet st3.twoWayDataBindings
        (attrPath.String (px.pathPrefix ++ [attributeName])) with
    | none =>
      rw [hdb] at h4
      exact (pure_eq_ok.1 h4).symm
    | some db =>
      rw [hdb] at h4
      exact h4

theorem Grows.rest (st : State) : Grows st st := ⟨rfl, rfl, rfl, List.prefix_refl _⟩

theorem Grows.followedBy {a b c : State} (h1 : Grows a b) (h2 : Grows b c) : Grows a c := by
  obtain ⟨h11, h12, h13, h14⟩ := h1
  obtain ⟨h21, h22, h23, h24⟩ := h2
  exact ⟨h21.trans h11, h22.trans h12, h23.trans h13, h14.trans h24⟩

theorem OnlyProps.grows {st st' : State} (h : OnlyProps st st') : Grows st st' := by
  obtain ⟨-, h2, h3, h4, h5⟩ := h
  exact ⟨h3, h4, h5, by rw [h2]⟩

theorem consoleError_grows (st : State) (args : List LogArg) :
    Grows st (consoleError st args) :=
  ⟨rfl, rfl, rfl, List.prefix_append _ _⟩

theorem hostCall_grows {st st' : State} {target : JSVal} {call : HostCall}
    (h : hostCall st target call = .ok st') : Grows st st' := by
  rw [hostCall_eq_ok h]
  exact ⟨rfl, rfl, rfl, List.prefix_append _ _⟩

theorem proxySet_grows {env : Env}
    {set : State → JSVal → String → JSVal → Except Fault State}
    (hset : ∀ s o n v s', set s o n v = .ok s' → Grows s s') {px : ProxyObj}
    {attributeName : String} {value : JSVal} {st st' : State} {b : Bool}
    (h : proxySet env set px attributeName value st = .ok (b, st')) : Grows st st' := by
  by_cases hexpr : isDataBindingExpression value = true
  · simp only [proxySet, hexpr, if_true] at h
    cases h
    exact Grows.rest _
  · rw [Bool.not_eq_true] at hexpr
    cases hfield : env.getField (px.pathPrefix ++ [attributeName]) with
    | none =>
      simp only [proxySet, hexpr, hfield, Bool.false_eq_true, if_false] at h
      cases h
      exact Grows.rest _
    | some field =>
      cases hconv : convertJSType env.rt (some field.Type_) value with
      | error f =>
        simp only [proxySet, hexpr, hfield, hconv, Bool.false_eq_true, if_false] at h
        cases h
      | ok r =>
        obtain ⟨convertedValue, err⟩ := r
        cases err with
        | some err =>
          simp only [proxySet, hexpr, hfield, hconv, Bool.false_eq_true, if_false] at h
          cases h
          exact consoleError_grows _ _
        | none =>
          obtain ⟨-, st1, st2, st3, h1, h2, h3, h4⟩ := proxySet_steps hexpr hfield hconv h
          have g1 := hset _ _ _ _ _ h1
          have g2 : Grows st1 st2 := by
            split at h2
            · obtain ⟨element, target, -, -, hc⟩ := h2
              exact hostCall_grows hc
            · rw [h2]
              exact Grows.rest _
          have g3 := (setAttrAll_onlyProps _ h3).grows
          have g4 : Grows st3 st' := by
            split at h4
            · exact (twoWay_SetAttr_onlyProps h4).grows
            · rw [h4]
              exact Grows.rest _
          exact ((g1.followedBy g2).followedBy g3).followedBy g4

theorem jsSetFuel_grows (env : Env) (n : Nat) :
    ∀ s o name v s', jsSetFuel env n s o name v = .ok s' → Grows s s' := by
  induction n with
  | zero =>
    intro s o name v s' h
    cases h
  | succ n ih =>
    intro s o name v s' h
    unfold jsSetFuel at h
    split at h
    · cases h
      exact ⟨rfl, rfl, rfl, List.prefix_refl _⟩
    · split at h
      · cases h
      · obtain ⟨⟨b, s''⟩, hp, hs⟩ := exists_of_map_eq_ok h
        cases hs
        exact proxySet_grows ih hp
    · cases h

theorem jsSet_grows (env : Env) :
    ∀ s o name v s', jsSet env s o name v = .ok s' → Grows s s' := by
  intro s o name v s' h
  exact jsSetFuel_grows env _ s o name v s' h

theorem attrPath_Set_grows {env : Env}
    {set : State → JSVal → String → JSVal → Except Fault State}
    (hset : ∀ s o n v s', set s o n v = .ok s' → Grows s s') (st : State) (path : attrPath) :
    ∀ obj v st', attrPath.Set env set st path obj v = .ok st' → Grows st st' := by
  induction path with
  | nil =>
    intro obj v st' h
    cases h
    exact Grows.rest _
  | cons seg rest ih =>
    intro obj v st' h
    unfold attrPath.Set at h
    split at h
    · cases h
      exact Grows.rest _
    · cases h
      exact Grows.rest _
    · split at h
      · exact hset _ _ _ _ _ h
      · simp only [bind_eq_ok] at h
        obtain ⟨o, -, h⟩ := h
        exact ih _ _ _ h

theorem newProxy_grows {env : Env} {st st' : State} { pathPrefix : attrPath} {proxy : JSVal}
    (h : newProxy env st pathPrefix = .ok (proxy, st')) : Grows st st' := by
  unfold newProxy at h
  simp only [bind_eq_ok] at h
  obtain ⟨subObj, -, h⟩ := h
  split at h
  · rw [pure_eq_ok] at h
    cases h
    exact ⟨rfl, rfl, rfl, List.prefix_refl _⟩
  · rw [pure_eq_ok] at h
    cases h
    exact ⟨rfl, rfl, rfl, List.prefix_refl _⟩
  · cases h

theorem subpropertyProxySet_grows {env : Env} {st st' : State} {bindedPath : attrPath}
    (h : subpropertyProxySet env st bindedPath = .ok st') : Grows st st' := by
  unfold subpropertyProxySet at h
  simp only [bind_eq_ok] at h
  obtain ⟨subpropertyPath, -, h⟩ := h
  split at h
  · simp only [bind_eq_ok] at h
    obtain ⟨added, -, h⟩ := h
    split at h
    · simp only [bind_eq_ok] at h
      obtain ⟨⟨proxy, st1⟩, h1, h2⟩ := h
      exact (newProxy_grows h1).followedBy (attrPath_Set_grows (jsSet_grows env) _ _ _ _ _ h2)
    · cases h
      exact Grows.rest _
  · cases h
    exact Grows.rest _

theorem newMutationObserver_grows {env : Env} {st st' : State} {proxy : JSVal}
    {fieldType : Option ReflectType} {attr : JSVal} {path : attrPath} {obs : Observer}
    (h : newMutationObserver env st proxy fieldType attr path = .ok (obs, st')) :
    Grows st st' ∧ obs = { proxy := proxy, fieldType := fieldType, attr := attr } := by
  unfold newMutationObserver at h
  simp only [bind_eq_ok] at h
  obtain ⟨st1, h1, ownerElement, -, name, -, st2, h2, h3⟩ := h
  rw [pure_eq_ok] at h3
  cases h3
  exact ⟨(domSet_onlyProps h1).grows.followedBy (hostCall_grows h2), rfl⟩

theorem addInputListener_grows {env : Env} {st st' : State} {proxy attr : JSVal}
    {path : attrPath} (h : addInputListener env st proxy attr path = .ok st') :
    Grows st st' := by
  unfold addInputListener at h
  simp only [bind_eq_ok] at h
  obtain ⟨ownerElement, -, st1, h1, h2⟩ := h
  exact (hostCall_grows h1).followedBy (hostCall_grows h2)

theorem splitDot_ne_nil (cs : List Char) : splitDot cs ≠ [] := by
  cases cs with
  | nil => simp [splitDot]
  | cons c cs =>
    unfold splitDot
    split
    · simp
    · split <;> simp

theorem joinDot_splitDot (cs : List Char) : joinDot (splitDot cs) = cs := by
  induction cs with
  | nil => rfl
  | cons c cs ih =>
    unfold splitDot
    split
    · rename_i hc
      cases hs : splitDot cs with
      | nil => exact absurd hs (splitDot_ne_nil cs)
      | cons seg segs =>
        rw [hs] at ih
        simp only [joinDot, List.nil_append, ih, hc]
    · cases hs : splitDot cs with
      | nil => exact absurd hs (splitDot_ne_nil cs)
      | cons seg segs =>
        rw [hs] at ih
        cases segs with
        | nil =>
          simp only [joinDot] at ih ⊢
          rw [ih]
        | cons seg' segs' =>
          simp only [joinDot, List.cons_append] at ih ⊢
          rw [ih]

theorem attrPath_String_newAttrPath (P : String) : attrPath.String (newAttrPath P) = P := by
  unfold attrPath.String newAttrPath
  rw [List.map_map]
  have : ((fun seg : String => seg.data) ∘ String.mk) = id := by
    funext l
    rfl
  rw [this, List.map_id, joinDot_splitDot]

theorem newAttrPath_ne_nil (P : String) : newAttrPath P ≠ [] := by
  unfold newAttrPath
  intro h
  exact splitDot_ne_nil _ (List.map_eq_nil_iff.1 h)

theorem mapGet_mapSet {α : Type} (m : List (String × α)) (k : String) (v : α) (k' : String) :
    mapGet (mapSet m k v) k' = if k' = k then some v else mapGet m k' := by
  induction m with
  | nil =>
    simp only [mapSet, mapGet]
    by_cases h : k' = k
    · simp [h]
    · have h' : ¬ k = k' := fun e => h e.symm
      simp [h, h']
  | cons kv rest ih =>
    obtain ⟨k0, v0⟩ := kv
    simp only [mapSet]
    by_cases h0 : k0 = k
    · simp only [h0, if_true, mapGet]
      by_cases h : k' = k
      · simp [h]
      · have h' : ¬ k = k' := fun e => h e.symm
        simp [h, h']
    · simp only [h0, if_false, mapGet, ih]
      by_cases h : k' = k
      · subst h
        simp [h0]
      · simp [h]

theorem marker_sliceTo (P : String) :
    sliceTo ("\x7b\x7b" ++ P ++ "\x7d\x7d") 2 = .ok "\x7b\x7b" := by
  unfold sliceTo
  have hl : 2 ≤ ("\x7b\x7b" ++ P ++ "\x7d\x7d").length := by
    simp only [String.length_append]
    have : "\x7b\x7b".length = 2 := rfl
    omega
  rw [if_pos hl]
  rfl

theorem marker_sliceLast (P : String) :
    sliceLast ("\x7b\x7b" ++ P ++ "\x7d\x7d") 2 = .ok "\x7d\x7d" := by
  unfold sliceLast sliceFrom
  have h1 : "\x7b\x7b".length = 2 := rfl
  have h2 : "\x7d\x7d".length = 2 := rfl
  have hl : ("\x7b\x7b" ++ P ++ "\x7d\x7d").length = P.length + 4 := by
    simp only [String.length_append]
    omega
  have hl' : 2 ≤ ("\x7b\x7b" ++ P ++ "\x7d\x7d").length := by omega
  rw [if_pos hl', if_pos (Nat.sub_le _ _), hl]
  congr 1
  apply String.ext
  simp only [String.data_append]
  show List.drop (P.length + 4 - 2) (['{', '{'] ++ P.data ++ ['}', '}']) = ['}', '}']
  have hP : P.length = P.data.length := rfl
  have : P.length + 4 - 2 = (['{', '{'] ++ P.data).length := by
    rw [List.length_append, hP]
    show _ = 2 + P.data.length
    omega
  rw [this, List.drop_left]

theorem marker_sliceBetween (P : String) :
    sliceBetween ("\x7b\x7b" ++ P ++ "\x7d\x7d") 2
      ((("\x7b\x7b" ++ P ++ "\x7d\x7d").length : Int) - 2) = .ok P := by
  unfold sliceBetween
  have h1 : "\x7b\x7b".length = 2 := rfl
  have h2 : "\x7d\x7d".length = 2 := rfl
  have hl : ("\x7b\x7b" ++ P ++ "\x7d\x7d").length = P.length + 4 := by
    simp only [String.length_append]
    omega
  rw [hl]
  have hc : ((2 : Nat) : Int) ≤ ((P.length + 4 : Nat) : Int) - 2 ∧
      ((P.length + 4 : Nat) : Int) - 2 ≤ ((P.length + 4 : Nat) : Int) := by
    constructor <;> omega
  rw [if_pos hc]
  congr 1
  apply String.ext
  have hP : P.length = P.data.length := rfl
  have ht : (((P.length + 4 : Nat) : Int) - 2).toNat = (['{', '{'] ++ P.data).length := by
    rw [List.length_append, hP]
    show _ = 2 + P.data.length
    omega
  simp only [String.data_append]
  show List.drop 2 (List.take _ (['{', '{'] ++ P.data ++ ['}', '}'])) = P.data
  rw [ht, List.take_left]
  rfl

theorem ok_bind {ε α β : Type} (a : α) (f : α → Except ε β) :
    ((Except.ok a : Except ε α) >>= f) = f a := rfl

theorem addTwoWay_marker {env : Env} {st st' : State} {obj : JSVal} {P : String}
    (hv : jsGet env st obj "value" ≠ .ok .undefined)
    (h : addTwoWay env st obj ("\x7b\x7b" ++ P ++ "\x7d\x7d") = .ok st') :
    ∃ obs rest,
      st'.twoWayDataBindings =
        mapSet st.twoWayDataBindings P
          { Attribute := obj, Path := newAttrPath P, MutationObserver := obs } ∧
      st'.oneWayDataBindings = st.oneWayDataBindings ∧
      st'.calls =
        st.calls ++
          (if (mapGet st.twoWayDataBindings P).isSome then
            [.consoleError [.str "data binding", .str P, .str "set more than once"]]
          else []) ++ rest := by
  unfold addTwoWay at h
  simp only [bind_eq_ok] at h
  obtain ⟨objValue, hobj, h⟩ := h
  have hne : objValue ≠ .undefined := by
    rintro rfl
    exact hv hobj
  rw [if_neg hne] at h
  simp only [marker_sliceTo, marker_sliceLast, marker_sliceBetween, ok_bind,
    attrPath_String_newAttrPath, ne_eq, not_true_eq_false, if_false, bind_eq_ok] at h
  obtain ⟨stB, hB, ownerElement, -, nodeName, -, stD, hD, proxy, -, ⟨obs, stE⟩, hE, hF⟩ := h
  have gA : Grows st
      (if (mapGet st.twoWayDataBindings P).isSome = true then
        consoleError st [.str "data binding", .str P, .str "set more than once"]
      else st) := by
    split
    · exact consoleError_grows _ _
    · exact Grows.rest _
  have gB := subpropertyProxySet_grows hB
  have gC : Grows stB
      (if (env.getField (newAttrPath P)).isNone = true then
        consoleError stB
          [.str "Error: two way data binding path:", .str P, .str "field doesn't exist"]
      else stB) := by
    split
    · exact consoleError_grows _ _
    · exact Grows.rest _
  have gD : Grows
      (if (env.getField (newAttrPath P)).isNone = true then
        consoleError stB
          [.str "Error: two way data binding path:", .str P, .str "field doesn't exist"]
      else stB) stD := by
    split at hD
    · simp only [bind_eq_ok] at hD
      obtain ⟨proxy', -, hD⟩ := hD
      exact addInputListener_grows hD
    · rw [pure_eq_ok] at hD
      rw [hD]
      exact Grows.rest _
  have gE := (newMutationObserver_grows hE).1
  have gF := twoWay_SetAttr_onlyProps hF
  have gAll : Grows st stE := (((gA.followedBy gB).followedBy gC).followedBy gD).followedBy gE
  have gBE : Grows
      (if (mapGet st.twoWayDataBindings P).isSome = true then
        consoleError st [.str "data binding", .str P, .str "set more than once"]
      else st) stE := ((gB.followedBy gC).followedBy gD).followedBy gE
  obtain ⟨rest, hrest⟩ := gBE.2.2.2
  refine ⟨obs, rest, ?_, ?_, ?_⟩
  · rw [gF.2.2.2.2]
    show mapSet stE.twoWayDataBindings P _ = _
    rw [gAll.2.2.1]
  · rw [gF.2.2.2.1]
    exact gAll.2.1
  · rw [gF.2.1]
    show stE.calls = _
    rw [← hrest]
    split
    · rfl
    · rw [List.append_nil]

theorem mapSet_keys {α : Type} (m : List (String × α)) (k : String) (v : α) (x : String)
    (hx : x ∈ (mapSet m k v).map Prod.fst) : x = k ∨ x ∈ m.map Prod.fst := by
  induction m with
  | nil =>
    simp only [mapSet, List.map_cons, List.map_nil, List.mem_singleton] at hx
    exact Or.inl hx
  | cons kv rest ih =>
    obtain ⟨k1, v1⟩ := kv
    simp only [mapSet] at hx
    by_cases h1 : k1 = k
    · simp only [h1, if_true, List.map_cons, List.mem_cons] at hx
      rcases hx with hx | hx
      · exact Or.inl hx
      · exact Or.inr (List.mem_cons_of_mem _ hx)
    · simp only [h1, if_false, List.map_cons, List.mem_cons] at hx
      rcases hx with hx | hx
      · exact Or.inr (by simp [hx])
      · rcases ih hx with h | h
        · exact Or.inl h
        · exact Or.inr (List.mem_cons_of_mem _ h)

/-- What `mapSet` leaves of the keys: no key twice, and the key `k` once. -/
theorem mapSet_count {α : Type} (m : List (String × α)) (k : String) (v : α)
    (hm : (m.map Prod.fst).Nodup) :
    ((mapSet m k v).map Prod.fst).Nodup ∧ ((mapSet m k v).map Prod.fst).count k = 1 := by
  induction m with
  | nil => simp [mapSet]
  | cons kv rest ih =>
    obtain ⟨k0, v0⟩ := kv
    simp only [List.map_cons, List.nodup_cons] at hm
    obtain ⟨hk0, hrest⟩ := hm
    simp only [mapSet]
    by_cases h0 : k0 = k
    · subst h0
      simp only [if_true, List.map_cons, List.nodup_cons]
      refine ⟨⟨hk0, hrest⟩, ?_⟩
      rw [List.count_cons_self, List.count_eq_zero_of_not_mem hk0]
    · simp only [h0, if_false, List.map_cons, List.nodup_cons]
      obtain ⟨ih1, ih2⟩ := ih hrest
      refine ⟨⟨?_, ih1⟩, ?_⟩
      · intro hmem
        rcases mapSet_keys _ _ _ _ hmem with h | h
        · exact h0 h
        · exact hk0 h
      · rw [List.count_cons_of_ne (fun e => h0 e.symm), ih2]

/-- C6: when `addTwoWay` has registered an attribute `a1` that carries the
marker of the path `P` and is then called for an attribute `a2` that carries
the same marker, the second call logs that the data binding is set more than
once, and afterwards the map `twoWayDataBindings` holds under the key `P` one
binding, the one whose `Attribute` is `a2`; every other key is as before the
second call. -/
theorem addTwoWay_duplicate_last_wins (env : Env) (st st1 st2 : State) (a1 a2 : JSVal)
    (P : String)
    (hv1 : jsGet env st a1 "value" ≠ .ok .undefined)
    (h1 : addTwoWay env st a1 ("\x7b\x7b" ++ P ++ "\x7d\x7d") = .ok st1)
    (hv2 : jsGet env st1 a2 "value" ≠ .ok .undefined)
    (h2 : addTwoWay env st1 a2 ("\x7b\x7b" ++ P ++ "\x7d\x7d") = .ok st2)
    (hkeys : (st.twoWayDataBindings.map Prod.fst).Nodup) :
    (∃ rest, st2.calls =
        st1.calls ++
          [.consoleError [.str "data binding", .str P, .str "set more than once"]] ++ rest) ∧
      (∃ obs, mapGet st2.twoWayDataBindings P =
        some { Attribute := a2, Path := newAttrPath P, MutationObserver := obs }) ∧
      ((st2.twoWayDataBindings.map Prod.fst).count P = 1) ∧
      (∀ k, k ≠ P → mapGet st2.twoWayDataBindings k = mapGet st1.twoWayDataBindings k) := by
  obtain ⟨obs1, rest1, hm1, -, -⟩ := addTwoWay_marker hv1 h1
  obtain ⟨obs2, rest2, hm2, -, hc2⟩ := addTwoWay_marker hv2 h2
  have hdup : (mapGet st1.twoWayDataBindings P).isSome = true := by
    rw [hm1, mapGet_mapSet, if_pos rfl]
    rfl
  rw [if_pos hdup] at hc2
  refine ⟨⟨rest2, hc2⟩, ⟨obs2, ?_⟩, ?_, ?_⟩
  · rw [hm2, mapGet_mapSet, if_pos rfl]
  · rw [hm2]
    have hn1 : (st1.twoWayDataBindings.map Prod.fst).Nodup := by
      rw [hm1]
      exact (mapSet_count _ _ _ hkeys).1
    exact (mapSet_count _ _ _ hn1).2
  · intro k hk
    rw [hm2, mapGet_mapSet, if_neg hk]

theorem addTwoWay_duplicate_last_wins_witness :
    ∃ st1 st2,
      addTwoWay sampleEnv sampleState (.ref (.node 5)) ("\x7b\x7b" ++ "Name" ++ "\x7d\x7d")
        = .ok st1 ∧
      addTwoWay sampleEnv st1 (.ref (.node 6)) ("\x7b\x7b" ++ "Name" ++ "\x7d\x7d")
        = .ok st2 ∧
      (∃ obs, mapGet st2.twoWayDataBindings "Name" =
        some { Attribute := .ref (.node 6), Path := newAttrPath "Name",
               MutationObserver := obs }) ∧
      (st2.twoWayDataBindings.map Prod.fst).count "Name" = 1 := by
  have hrun : (addTwoWay sampleEnv sampleState (.ref (.node 5))
        ("\x7b\x7b" ++ "Name" ++ "\x7d\x7d") >>= fun st1 =>
      jsGet sampleEnv st1 (.ref (.node 6)) "value" >>= fun v2 =>
      (addTwoWay sampleEnv st1 (.ref (.node 6)) ("\x7b\x7b" ++ "Name" ++ "\x7d\x7d")).map
        fun _ => v2) = .ok (.string "\x7b\x7bName\x7d\x7d") := by decide
  simp only [bind_eq_ok] at hrun
  obtain ⟨st1, h1, v2, hv2, hmap⟩ := hrun
  obtain ⟨st2, h2, hv⟩ := exists_of_map_eq_ok hmap
  have hne : jsGet sampleEnv st1 (.ref (.node 6)) "value" ≠ .ok .undefined := by
    rw [hv2, hv]
    decide
  have h := addTwoWay_duplicate_last_wins sampleEnv sampleState st1 st2 (.ref (.node 5))
    (.ref (.node 6)) "Name" (by decide) h1 hne h2 (by decide)
  exact ⟨st1, st2, h1, h2, h.2.1, h.2.2.1⟩

theorem take_two_eq_iff (p : String) (l : List Char) (hp : p.data.length = 2) :
    (String.mk (l.take 2) == p) = true ↔ p.data <+: l := by
  rw [beq_iff_eq, List.prefix_iff_eq_take, hp]
  constructor
  · intro h
    rw [← h]
  · intro h
    rw [← h]

theorem drop_last_two_eq_iff (p : String) (l : List Char) (hp : p.data.length = 2) :
    (String.mk (l.drop (l.length - 2)) == p) = true ↔ p.data <:+ l := by
  rw [beq_iff_eq, List.suffix_iff_eq_drop, hp]
  constructor
  · intro h
    rw [← h]
  · intro h
    rw [← h]

theorem isDataBindingExpression_string (s : String) :
    isDataBindingExpression (.string s) = true ↔
      4 ≤ s.length ∧
        (("\x7b\x7b".data <+: s.data ∧ "\x7d\x7d".data <:+ s.data) ∨
          ("||".data <+: s.data ∧ "||".data <:+ s.data)) := by
  have h1 := take_two_eq_iff "\x7b\x7b" s.data rfl
  have h2 := drop_last_two_eq_iff "\x7d\x7d" s.data rfl
  have h3 := take_two_eq_iff "||" s.data rfl
  have h4 := drop_last_two_eq_iff "||" s.data rfl
  unfold isDataBindingExpression
  simp only [JSVal.Interface]
  by_cases hlen : s.length < 4
  · rw [if_pos hlen]
    constructor
    · intro h
      cases h
    · intro h
      omega
  · rw [if_neg hlen, Bool.or_eq_true, Bool.and_eq_true, Bool.and_eq_true]
    have hl : s.length = s.data.length := rfl
    rw [hl, h1, h2, h3, h4]
    constructor
    · intro h
      exact ⟨by omega, h⟩
    · intro h
      exact h.2

theorem isDataBindingExpression_iff (value : JSVal) :
    isDataBindingExpression value = true ↔
      ∃ s, value = .string s ∧ 4 ≤ s.length ∧
        (("\x7b\x7b".data <+: s.data ∧ "\x7d\x7d".data <:+ s.data) ∨
          ("||".data <+: s.data ∧ "||".data <:+ s.data)) := by
  constructor
  · intro h
    cases value with
    | string s => exact ⟨s, rfl, (isDataBindingExpression_string s).1 h⟩
    | undefined => cases h
    | null => cases h
    | boolean b => cases h
    | number x => cases h
    | ref r => cases r <;> cases h
    | proxy id => cases h
  · rintro ⟨s, rfl, h⟩
    exact (isDataBindingExpression_string s).2 h

/-- C5: `isDataBindingExpression` holds exactly of the strings of length at
least 4 that start with two opening braces and end with two closing braces, or
start and end with two bars (so of no value that is not a string and of no
shorter string); and a proxy write of such a raw value returns `true` and
leaves the whole state, the wrapped object, the calls into the host element and
every DOM node, as it was. -/
theorem proxySet_suppresses_binding_expression (env : Env)
    (set : State → JSVal → String → JSVal → Except Fault State) (px : ProxyObj)
    (attributeName : String) (value : JSVal) (st : State) :
    (isDataBindingExpression value = true ↔
      ∃ s, value = .string s ∧ 4 ≤ s.length ∧
        (("\x7b\x7b".data <+: s.data ∧ "\x7d\x7d".data <:+ s.data) ∨
          ("||".data <+: s.data ∧ "||".data <:+ s.data))) ∧
      (isDataBindingExpression value = true →
        proxySet env set px attributeName value st = .ok (true, st)) := by
  refine ⟨isDataBindingExpression_iff value, ?_⟩
  intro h
  simp [proxySet, h]

theorem proxySet_suppresses_binding_expression_witness :
    isDataBindingExpression (.string "\x7b\x7bName\x7d\x7d") = true ∧
      proxySet sampleEnv (jsSet sampleEnv) sampleRootProxy "Name"
        (.string "\x7b\x7bName\x7d\x7d") sampleState = .ok (true, sampleState) :=
  ⟨by decide,
    (proxySet_suppresses_binding_expression sampleEnv (jsSet sampleEnv) sampleRootProxy "Name"
      (.string "\x7b\x7bName\x7d\x7d") sampleState).2 (by decide)⟩

/-- C1: a proxy write to an existing field, with a raw string that
`convertJSType` does not parse for the kind of the field, returns `true` and
leaves the heap (the wrapped model object and every DOM node), the proxies and
the binding maps as they were; it calls nothing in the host but, at most, the
console: no attribute is set and no binding is rendered again. -/
theorem proxySet_coercion_error_leaves_model (env : Env)
    (set : State → JSVal → String → JSVal → Except Fault State) (px : ProxyObj)
    (attributeName s : String) (st : State) (field : StructField) (val : GoVal)
    (err : ParseErr)
    (hfield : env.getField (px.pathPrefix ++ [attributeName]) = some field)
    (herr : convertJSType env.rt (some field.Type_) (.string s) = .ok (val, some err)) :
    ∃ st', proxySet env set px attributeName (.string s) st = .ok (true, st') ∧
      st'.props = st.props ∧ st'.proxies = st.proxies ∧
      st'.oneWayDataBindings = st.oneWayDataBindings ∧
      st'.twoWayDataBindings = st.twoWayDataBindings ∧ st'.Children = st.Children ∧
      (st'.calls = st.calls ∨ ∃ args, st'.calls = st.calls ++ [.consoleError args]) := by
  by_cases hexpr : isDataBindingExpression (.string s) = true
  · exact ⟨st, by simp [proxySet, hexpr], rfl, rfl, rfl, rfl, rfl, Or.inl rfl⟩
  · refine ⟨consoleError st
        [.str "Error converting value in setting the property",
          .str (attrPath.String (px.pathPrefix ++ [attributeName])), .str ": (",
          .js (.string s), .str ")", .err err], ?_, rfl, rfl, rfl, rfl, rfl, Or.inr ⟨_, rfl⟩⟩
    simp only [proxySet, hexpr, hfield, herr]
    rfl

theorem proxySet_coercion_error_leaves_model_witness :
    ∃ st', proxySet sampleEnv (jsSet sampleEnv) sampleRootProxy "Count" (.string "abc")
        sampleState = .ok (true, st') ∧
      st'.props = sampleState.props ∧ st'.proxies = sampleState.proxies ∧
      st'.oneWayDataBindings = sampleState.oneWayDataBindings ∧
      st'.twoWayDataBindings = sampleState.twoWayDataBindings ∧
      st'.Children = sampleState.Children ∧
      (st'.calls = sampleState.calls ∨
        ∃ args, st'.calls = sampleState.calls ++ [.consoleError args]) :=
  proxySet_coercion_error_leaves_model sampleEnv (jsSet sampleEnv) sampleRootProxy "Count" "abc"
    sampleState { Name := "Count", PkgPath := "", Type_ := { Kind := .Int, Name := "int" } }
    (.int64 0) .ErrSyntax (by decide) (by decide)

/-- C4: in a proxy write that passes coercion, after the store `subObj.Set`
has led to the state `st1`: when the proxy is the root proxy and the field is
exported, the one call into the host that follows is `setAttribute` on the
host element read from `Element.Object`, with the name
`camelCaseToKebab(attributeName)` and the raw value written; when the proxy has
a path prefix or the field is not exported, no call into the host follows. -/
theorem proxySet_reflects_attribute (env : Env)
    (set : State → JSVal → String → JSVal → Except Fault State) (px : ProxyObj)
    (attributeName : String) (value : JSVal) (st st1 st' : State) (field : StructField)
    (convertedValue : GoVal) (b : Bool)
    (hexpr : isDataBindingExpression value = false)
    (hfield : env.getField (px.pathPrefix ++ [attributeName]) = some field)
    (hconv : convertJSType env.rt (some field.Type_) value = .ok (convertedValue, none))
    (hset : set st px.subObj attributeName (externalize env.rt convertedValue) = .ok st1)
    (hret : proxySet env set px attributeName value st = .ok (b, st')) :
    b = true ∧
      (px.pathPrefix.length = 0 ∧ field.PkgPath = "" →
        ∃ element target, jsGet env st1 px.subObj "Element" = .ok element ∧
          jsGet env st1 element "Object" = .ok target ∧
          st'.calls = st1.calls ++
            [.setAttribute target (env.rt.camelCaseToKebab attributeName) value]) ∧
      (px.pathPrefix.length ≠ 0 ∨ field.PkgPath ≠ "" → st'.calls = st1.calls) := by
  obtain ⟨hb, st1', st2, st3, h1, h2, h3, h4⟩ := proxySet_steps hexpr hfield hconv hret
  rw [hset] at h1
  cases h1
  have p3 := setAttrAll_onlyProps _ h3
  have p4 : OnlyProps st3 st' := by
    split at h4
    · exact twoWay_SetAttr_onlyProps h4
    · rw [h4]
      exact OnlyProps.same _
  have hcalls : st'.calls = st2.calls := p4.2.1.trans p3.2.1
  refine ⟨hb, ?_, ?_⟩
  · intro hroot
    rw [if_pos hroot] at h2
    obtain ⟨element, target, he, ht, hc⟩ := h2
    refine ⟨element, target, he, ht, ?_⟩
    rw [hcalls, hostCall_eq_ok hc]
  · intro hnot
    have hn : ¬ (px.pathPrefix.length = 0 ∧ field.PkgPath = "") := by
      rintro ⟨h0, hp⟩
      rcases hnot with h | h
      · exact h h0
      · exact h hp
    rw [if_neg hn] at h2
    rw [hcalls, h2]

theorem proxySet_reflects_attribute_witness :
    ∃ st', proxySet sampleEnv (jsSet sampleEnv) sampleRootProxy "Name" (.string "Ada")
        sampleState = .ok (true, st') ∧
      st'.calls = [.setAttribute (.ref (.node 0)) "name" (.string "Ada")] := by
  have hrun : (proxySet sampleEnv (jsSet sampleEnv) sampleRootProxy "Name" (.string "Ada")
      sampleState).map Prod.fst = .ok true := by decide
  obtain ⟨⟨b, st'⟩, hret, hb⟩ := exists_of_map_eq_ok hrun
  cases hb
  have h := proxySet_reflects_attribute sampleEnv (jsSet sampleEnv) sampleRootProxy "Name"
    (.string "Ada") sampleState sampleStateAda st'
    { Name := "Name", PkgPath := "", Type_ := { Kind := .String, Name := "string" } }
    (.string "Ada") true (by decide) (by decide) (by decide) rfl hret
  obtain ⟨-, hpos, -⟩ := h
  obtain ⟨element, target, he, ht, hc⟩ := hpos ⟨rfl, rfl⟩
  have he' : jsGet sampleEnv sampleStateAda sampleRootProxy.subObj "Element"
      = .ok (.ref (.obj 1)) := by decide
  rw [he'] at he
  cases he
  have ht' : jsGet sampleEnv sampleStateAda (.ref (.obj 1)) "Object"
      = .ok (.ref (.node 0)) := by decide
  rw [ht'] at ht
  cases ht
  exact ⟨st', hret, hc⟩

/-- C8 (counterexample): for a field of kind bool the texts `1`, `t` and `TRUE`
are converted to `true` without an error. -/
theorem convertJSType_bool_not_strict :
    convertJSType sampleRuntime (some { Kind := .Bool, Name := "bool" }) (.string "1")
        = .ok (.bool true, none) ∧
      convertJSType sampleRuntime (some { Kind := .Bool, Name := "bool" }) (.string "t")
        = .ok (.bool true, none) ∧
      convertJSType sampleRuntime (some { Kind := .Bool, Name := "bool" }) (.string "TRUE")
        = .ok (.bool true, none) := by
  decide

/-- C8 (amended): for a field of kind bool, `convertJSType` of a string gives
`true` without an error for `1`, `t`, `T`, `TRUE`, `true` and `True`, `false`
without an error for `0`, `f`, `F`, `FALSE`, `false` and `False`, and a syntax
error for every other string. -/
theorem convertJSType_bool_parse (rt : Runtime) (typeName s : String) :
    convertJSType rt (some { Kind := .Bool, Name := typeName }) (.string s) =
      .ok (if s ∈ ["1", "t", "T", "TRUE", "true", "True"] then (.bool true, none)
        else if s ∈ ["0", "f", "F", "FALSE", "false", "False"] then (.bool false, none)
        else (.bool false, some .ErrSyntax)) := by
  simp only [convertJSType, JSVal.Interface, parseBool]
  split <;> simp_all

/-- C9: `testConstructorFunction` returns `nil` for a function that takes a
parameter, `func(x int) *MyElement`, and panics in package `reflect` for a
function that returns a pointer to a type that is not a struct, `func() *int`. -/
theorem testConstructorFunction_accepts_parameters :
    sampleConstructorWithParameter.NumIn = 1 ∧
      testConstructorFunction sampleRuntime sampleConstructorWithParameter = .ok none ∧
      testConstructorFunction sampleRuntime
        { Kind := .Func, NumIn := 0,
          Out := [{ Kind := .Ptr,
                    Elem := some { Kind := .Int, Name := "int", FieldByNameElement := none } }] }
        = .error .reflectPanic := by
  decide

/-- C10: `scanElement` faults with a slice out of range on an element whose
attribute is named `x` and has the empty value (in `addTwoWay`, at
`value[:2]`), and on one whose attribute is named `x` and has the value `10`
(`addTwoWay` returns, then `name[:3]` faults). -/
theorem scanElement_faults_on_short_attribute :
    (scanElement sampleEnv (.mk (.ref (.node 1)) (some [.ref (.node 3)]) [] [])
        sampleState).map (fun _ => ()) = .error .sliceBounds ∧
      (addTwoWay sampleEnv sampleState (.ref (.node 3)) "").map (fun _ => ())
        = .error .sliceBounds ∧
      (addTwoWay sampleEnv sampleState (.ref (.node 8)) "10").map (fun st => st.calls)
        = .ok [] ∧
      (scanElement sampleEnv (.mk (.ref (.node 1)) (some [.ref (.node 8)]) [] [])
        sampleState).map (fun _ => ()) = .error .sliceBounds := by
  decide

/-- C7: for an attribute `title` of an `INPUT` element that carries the marker
of the path `Missing`, which is no field of the model, `addTwoWay` logs that
the field doesn't exist and goes on: it attaches the two input listeners and
the mutation observer, with a nil field type, and puts the binding into
`twoWayDataBindings` under `Missing`; the callback of such an observer faults
on a nil `reflect.Type` when the attribute holds a string. -/
theorem addTwoWay_installs_binding_for_missing_field :
    sampleEnv.getField (newAttrPath "Missing") = none ∧
      (addTwoWay sampleEnv sampleState (.ref (.node 4)) "\x7b\x7bMissing\x7d\x7d").map
          (fun st => (mapGet st.twoWayDataBindings "Missing", st.calls)) =
        .ok
          (some
              { Attribute := .ref (.node 4), Path := ["Missing"],
                MutationObserver :=
                  { proxy := .proxy 0, fieldType := none, attr := .ref (.node 4) } },
            [.consoleError
                [.str "Error: two way data binding path:", .str "Missing",
                  .str "field doesn't exist"],
              .addEventListener (.ref (.node 1)) "change"
                (.input (.proxy 0) (.ref (.node 4)) (.ref (.node 1)) ["Missing"]),
              .addEventListener (.ref (.node 1)) "input"
                (.input (.proxy 0) (.ref (.node 4)) (.ref (.node 1)) ["Missing"]),
              .observe { proxy := .proxy 0, fieldType := none, attr := .ref (.node 4) }
                (.ref (.node 1)) "title"]) ∧
      (mutationObserverHandler sampleEnv
          { proxy := .proxy 0, fieldType := none, attr := .ref (.node 4) }
          sampleState).map (fun _ => ()) = .error .nilDereference := by
  decide

theorem jsObjectEqInterface_string_false (rt : Runtime) (t : Option ReflectType) (s : String)
    (current : JSVal) (convertedValue : GoVal) (err : Option ParseErr)
    (h : convertJSType rt t (.string s) = .ok (convertedValue, err)) :
    jsObjectEqInterface rt current convertedValue = false := by
  unfold convertJSType at h
  simp only [JSVal.Interface] at h
  cases t with
  | none => cases h
  | some t =>
    simp only at h
    split at h <;> cases h <;> rfl

/-- The callback of the mutation observer, for an attribute that holds a string
which coerces without an error, writes through the proxy whatever the model
holds. -/
theorem mutationObserverHandler_string (env : Env) (obs : Observer) (st : State)
    (s : String) (attrPathValue current : JSVal) (convertedValue : GoVal)
    (hval : jsGet env st obs.attr "value" = .ok (.string s))
    (hpath : jsGet env st obs.attr "__attr_path__" = .ok attrPathValue)
    (hconv : convertJSType env.rt obs.fieldType (.string s) = .ok (convertedValue, none))
    (hget : attrPath.Get env st (newAttrPath (attrPathValue.String env.rt)) obs.proxy
      = .ok current) :
    mutationObserverHandler env obs st =
      attrPath.Set env (jsSet env) st (newAttrPath (attrPathValue.String env.rt)) obs.proxy
        (externalize env.rt convertedValue) := by
  unfold mutationObserverHandler
  rw [hval, ok_bind, hpath, ok_bind]
  simp only [hconv, hget, ok_bind,
    jsObjectEqInterface_string_false env.rt obs.fieldType s current convertedValue none hconv]
  rfl

/-- C3: when the attribute holds `abc` and the model field `Name`, of kind
string, holds `abc` as well, the callback of the mutation observer still writes
through the proxy: the "set" handler runs and calls `setAttribute`. -/
theorem mutationObserverHandler_writes_equal_value :
    jsGet sampleEnv sampleState (.ref (.node 2)) "value" = .ok (.string "abc") ∧
      convertJSType sampleRuntime (some { Kind := .String, Name := "string" }) (.string "abc")
        = .ok (.string "abc", none) ∧
      attrPath.Get sampleEnv sampleState ["Name"] (.proxy 0) = .ok (.string "abc") ∧
      (mutationObserverHandler sampleEnv
          { proxy := .proxy 0, fieldType := some { Kind := .String, Name := "string" },
            attr := .ref (.node 2) }
          sampleState).map (fun st => st.calls) =
        .ok [.setAttribute (.ref (.node 0)) "name" (.string "abc")] := by
  decide

theorem replaceFrom_skip (old new : List Char) (xs rest : List Char) :
    replaceFrom old new xs.length (xs ++ rest) = replaceFrom old new 0 rest := by
  induction xs with
  | nil => rfl
  | cons x xs ih =>
    simp only [List.length_cons, List.cons_append, replaceFrom]
    exact ih

theorem replaceFrom_other (q : String) (new : List Char) (c : Char) (rest : List Char)
    (hc : c ≠ '[') :
    replaceFrom (markerText q) new 0 (c :: rest) =
      c :: replaceFrom (markerText q) new 0 rest := by
  have h : (markerText q).isPrefixOf (c :: rest) = false := by
    simp only [markerText, List.isPrefixOf, Bool.and_eq_false_imp, beq_iff_eq]
    intro e
    exact absurd e.symm hc
  simp only [replaceFrom, h, Bool.false_eq_true, if_false]

theorem replaceFrom_text (q : String) (new : List Char) (xs rest : List Char)
    (hxs : ∀ c ∈ xs, c ≠ '[') :
    replaceFrom (markerText q) new 0 (xs ++ rest) =
      xs ++ replaceFrom (markerText q) new 0 rest := by
  induction xs with
  | nil => rfl
  | cons x xs ih =>
    rw [List.cons_append, replaceFrom_other q new x _ (hxs x (List.mem_cons_self _ _)),
      ih (fun c hc => hxs c (List.mem_cons_of_mem _ hc))]
    rfl

theorem replaceFrom_marker (q : String) (new : List Char) (rest : List Char) :
    replaceFrom (markerText q) new 0 (markerText q ++ rest) =
      new ++ replaceFrom (markerText q) new 0 rest := by
  have h : (markerText q).isPrefixOf (markerText q ++ rest) = true := by
    rw [List.isPrefixOf_iff_prefix]
    exact List.prefix_append _ _
  have hl : (markerText q).length - 1 = ('[' :: q.data ++ [']', ']']).length := by
    simp [markerText]
  show replaceFrom (markerText q) new 0 ('[' :: (('[' :: q.data ++ [']', ']']) ++ rest)) = _
  rw [replaceFrom]
  have h' : (markerText q).isPrefixOf ('[' :: (('[' :: q.data ++ [']', ']']) ++ rest)) = true := h
  rw [if_pos h', hl, replaceFrom_skip]

/-- Two bracket-free texts, each followed by a closing bracket, of which one
begins the other, are equal. -/
theorem eq_of_prefix_closing (q p t1 t2 : List Char) (hq : ']' ∉ q) (hp : ']' ∉ p)
    (h : (q ++ ']' :: t1) <+: (p ++ ']' :: t2)) : q = p := by
  induction q generalizing p with
  | nil =>
    cases p with
    | nil => rfl
    | cons b p' =>
      simp only [List.nil_append, List.cons_append] at h
      have hb := (List.cons_prefix_cons.1 h).1
      exact absurd (by rw [← hb]; exact List.mem_cons_self _ _) hp
  | cons a q' ih =>
    cases p with
    | nil =>
      simp only [List.nil_append, List.cons_append] at h
      have ha := (List.cons_prefix_cons.1 h).1
      exact absurd (by rw [ha]; exact List.mem_cons_self _ _) hq
    | cons b p' =>
      simp only [List.cons_append] at h
      obtain ⟨hab, ht⟩ := List.cons_prefix_cons.1 h
      rw [hab, ih p' (fun m => hq (List.mem_cons_of_mem _ m))
        (fun m => hp (List.mem_cons_of_mem _ m)) ht]

theorem replaceFrom_other_marker (q p : String) (new : List Char) (rest : List Char)
    (hq : ']' ∉ q.data) (hp1 : '[' ∉ p.data) (hp2 : ']' ∉ p.data) (hne : p ≠ q) :
    replaceFrom (markerText q) new 0 (markerText p ++ rest) =
      markerText p ++ replaceFrom (markerText q) new 0 rest := by
  have h0 : (markerText q).isPrefixOf (markerText p ++ rest) = false := by
    rw [Bool.eq_false_iff]
    intro h
    rw [List.isPrefixOf_iff_prefix] at h
    have h1 : (q.data ++ ']' :: [']']) <+: (p.data ++ ']' :: (']' :: rest)) := by
      have h' : ('[' :: '[' :: (q.data ++ [']', ']'])) <+:
          ('[' :: '[' :: (p.data ++ ']' :: ']' :: rest)) := by
        simpa [markerText] using h
      exact (List.cons_prefix_cons.1 (List.cons_prefix_cons.1 h').2).2
    have e := eq_of_prefix_closing _ _ _ _ hq hp2 h1
    exact hne (String.ext e.symm)
  have h1 : (markerText q).isPrefixOf ('[' :: (p.data ++ ']' :: ']' :: rest)) = false := by
    cases hp : p.data with
    | nil => simp [markerText, List.isPrefixOf]
    | cons c cs =>
      have hc : c ≠ '[' := by
        intro e
        apply hp1
        rw [hp, e]
        exact List.mem_cons_self _ _
      have hc' : ¬ '[' = c := fun e => hc e.symm
      simp [markerText, List.isPrefixOf, hc']
  have hrest : ∀ c ∈ p.data ++ [']', ']'], c ≠ '[' := by
    intro c hc
    rcases List.mem_append.1 hc with h | h
    · intro e
      exact hp1 (e ▸ h)
    · simp only [List.mem_cons, List.mem_singleton, List.not_mem_nil, or_false, or_self] at h
      rw [h]
      decide
  show replaceFrom (markerText q) new 0 ('[' :: '[' :: (p.data ++ [']', ']']) ++ rest) = _
  have e : ('[' :: '[' :: (p.data ++ [']', ']']) ++ rest)
      = '[' :: ('[' :: (p.data ++ ']' :: ']' :: rest)) := by simp
  have h0' : (markerText q).isPrefixOf ('[' :: ('[' :: (p.data ++ ']' :: ']' :: rest))) = false := by
    rw [← e]
    exact h0
  rw [e, replaceFrom, if_neg (by rw [h0']; decide), replaceFrom,
    if_neg (by rw [h1]; decide)]
  have e2 : p.data ++ ']' :: ']' :: rest = (p.data ++ [']', ']']) ++ rest := by simp
  rw [e2, replaceFrom_text q new _ rest hrest]
  simp [markerText]

theorem replaceFrom_expandSegments (val : String → String) (done : List String) (q : String)
    (segs : List Segment) (hq : ']' ∉ q.data)
    (hstatic : ∀ text, Segment.static text ∈ segs → '[' ∉ text.data)
    (hmarker : ∀ p, Segment.marker p ∈ segs →
      '[' ∉ p.data ∧ ']' ∉ p.data ∧ '[' ∉ (val p).data) :
    replaceFrom (markerText q) (val q).data 0 (expandSegments val done segs) =
      expandSegments val (q :: done) segs := by
  induction segs with
  | nil => rfl
  | cons seg segs ih =>
    have ih' := ih (fun text h => hstatic text (List.mem_cons_of_mem _ h))
      (fun p h => hmarker p (List.mem_cons_of_mem _ h))
    cases seg with
    | static text =>
      have ht := hstatic text (List.mem_cons_self _ _)
      simp only [expandSegments]
      rw [replaceFrom_text q _ _ _ (fun c hc e => ht (e ▸ hc)), ih']
    | marker p =>
      obtain ⟨hp1, hp2, hpv⟩ := hmarker p (List.mem_cons_self _ _)
      simp only [expandSegments]
      by_cases hd : p ∈ done
      · have hd' : p ∈ q :: done := List.mem_cons_of_mem _ hd
        rw [if_pos hd, if_pos hd', replaceFrom_text q _ _ _ (fun c hc e => hpv (e ▸ hc)), ih']
      · by_cases hpq : p = q
        · subst hpq
          rw [if_neg hd, if_pos (List.mem_cons_self _ _), replaceFrom_marker, ih']
        · have hd' : p ∉ q :: done := by
            intro h
            rcases List.mem_cons.1 h with h | h
            · exact hpq h
            · exact hd h
          rw [if_neg hd, if_neg hd', replaceFrom_other_marker q p _ _ hq hp1 hp2 hpq, ih']

theorem expandSegments_nil (val : String → String) (segs : List Segment) :
    expandSegments val [] segs = templateOfSegments segs := by
  induction segs with
  | nil => rfl
  | cons seg segs ih =>
    cases seg with
    | static text => simp only [expandSegments, templateOfSegments, ih]
    | marker p =>
      simp only [expandSegments, templateOfSegments, ih, List.not_mem_nil, if_false]

theorem expandSegments_all (val : String → String) (done : List String) (segs : List Segment)
    (hcover : ∀ p, Segment.marker p ∈ segs → p ∈ done) :
    expandSegments val done segs = renderSegments val segs := by
  induction segs with
  | nil => rfl
  | cons seg segs ih =>
    have ih' := ih (fun p h => hcover p (List.mem_cons_of_mem _ h))
    cases seg with
    | static text => simp only [expandSegments, renderSegments, ih']
    | marker p =>
      simp only [expandSegments, renderSegments, ih',
        if_pos (hcover p (List.mem_cons_self _ _))]

theorem marker_data (n : String) : ("[[" ++ n ++ "]]").data = markerText n := by
  simp only [String.data_append, markerText]
  rfl

theorem render_expandSegments (env : Env) (st : State) (obj : JSVal) (val : String → String)
    (segs : List Segment) (names : List String) (done : List String)
    (hnames : ∀ n ∈ names, ']' ∉ n.data)
    (hstatic : ∀ text, Segment.static text ∈ segs → '[' ∉ text.data)
    (hmarker : ∀ p, Segment.marker p ∈ segs →
      '[' ∉ p.data ∧ ']' ∉ p.data ∧ '[' ∉ (val p).data)
    (hget : ∀ n ∈ names, ∃ fieldValue,
      attrPath.Get env st (newAttrPath n) obj = .ok fieldValue ∧
        fieldValue.String env.rt = val n) :
    oneWayDataBinding.render env st obj (names.map newAttrPath)
        ⟨expandSegments val done segs⟩ =
      .ok ⟨expandSegments val (names.reverse ++ done) segs⟩ := by
  induction names generalizing done with
  | nil => rfl
  | cons n names ih =>
    obtain ⟨fieldValue, hg, hv⟩ := hget n (List.mem_cons_self _ _)
    have hold : ¬ markerText n = [] := by
      simp [markerText]
    simp only [List.map_cons, oneWayDataBinding.render, hg, ok_bind,
      attrPath_String_newAttrPath, hv, stringsReplace, marker_data, hold, if_false]
    rw [replaceFrom_expandSegments val done n segs (hnames n (List.mem_cons_self _ _))
      hstatic hmarker,
      ih (n :: done) (fun m hm => hnames m (List.mem_cons_of_mem _ hm))
        (fun m hm => hget m (List.mem_cons_of_mem _ hm))]
    simp

theorem domSet_props {st st' : State} {o : JSVal} {name : String} {v : JSVal}
    (h : domSet st o name v = .ok st') :
    ∃ r, o = .ref r ∧
      st'.props = fun r' name' => if r' = r ∧ name' = name then v else st.props r' name' := by
  unfold domSet at h
  split at h
  · cases h
    exact ⟨_, rfl, rfl⟩
  · cases h

theorem oneWay_SetAttr_writes {env : Env} {db : oneWayDataBinding} {st st' : State}
    {obj : JSVal} {value : String} {attr : Ref} {attrValue : JSVal}
    (hattr : db.Attribute = .ref attr)
    (hrender : oneWayDataBinding.render env st obj db.Paths db.Str = .ok value)
    (hv : jsGet env st db.Attribute "value" = .ok attrValue)
    (h : db.SetAttr env st obj = .ok st') :
    st'.props attr (if attrValue = .undefined then "data" else "value") = .string value := by
  unfold oneWayDataBinding.SetAttr at h
  rw [hrender, ok_bind, hv, ok_bind] at h
  split at h
  · rename_i hne
    rw [if_neg hne]
    simp only [bind_eq_ok] at h
    obtain ⟨st1, h1, ownerElement, -, nodeName, -, h⟩ := h
    obtain ⟨r, hr, hp1⟩ := domSet_props h1
    rw [hattr] at hr
    cases hr
    have e1 : st1.props attr "value" = .string value := by
      rw [hp1]
      simp
    split at h
    · simp only [bind_eq_ok] at h
      obtain ⟨ownerElement', -, name, -, h⟩ := h
      obtain ⟨r2, -, hp2⟩ := domSet_props h
      rw [hp2]
      simp only
      split
      · rfl
      · exact e1
    · cases h
      exact e1
  · rename_i hne
    have : attrValue = .undefined := by
      by_contra hc
      exact hne hc
    rw [if_pos this]
    obtain ⟨r, hr, hp1⟩ := domSet_props h
    rw [hattr] at hr
    cases hr
    rw [hp1]
    simp

/-- C11 (counterexample): with the model field `Name` holding the text of the
marker of `Count`, the template `[[Name]] [[Count]]`, whose paths are found as
`Name`, `Count`, is rendered as `0 0` by `SetAttr`, and as `[[Count]] 0` when
the paths are taken in the other order, which is also what the pre-split
segment list renders; and with harmless values, a template whose literal text
holds brackets is rendered as `h h` where the segment list renders
`[[hidden]] h`. -/
theorem render_not_simultaneous :
    sampleRuntime.oneWayFindAll "[[Name]] [[Count]]" = ["Name", "Count"] ∧
      oneWayDataBinding.render sampleEnv sampleStateMarker (.ref (.obj 0))
        [["Name"], ["Count"]] "[[Name]] [[Count]]" = .ok "0 0" ∧
      oneWayDataBinding.render sampleEnv sampleStateMarker (.ref (.obj 0))
        [["Count"], ["Name"]] "[[Name]] [[Count]]" = .ok "[[Count]] 0" ∧
      templateOfSegments [.marker "Name", .static " ", .marker "Count"]
        = "[[Name]] [[Count]]".data ∧
      renderSegments
          (fun path => (sampleStateMarker.props (.obj 0) path).String sampleRuntime)
          [.marker "Name", .static " ", .marker "Count"] = "[[Count]] 0".data ∧
      (oneWayDataBinding.SetAttr sampleEnv
          { Str := "[[Name]] [[Count]]", Attribute := .ref (.node 7),
            Paths := [["Name"], ["Count"]] }
          sampleStateMarker (.ref (.obj 0))).map (fun st => st.props (.node 7) "data")
        = .ok (.string "0 0") ∧
      oneWayDataBinding.render sampleEnv sampleState (.ref (.obj 0))
        [["hidden"], ["hidden"]] "[[[[hidden]]idden]] [[hidden]]" = .ok "h h" ∧
      templateOfSegments
          [.static "[[", .marker "hidden", .static "idden]] ", .marker "hidden"]
        = "[[[[hidden]]idden]] [[hidden]]".data ∧
      renderSegments
          (fun path => (sampleState.props (.obj 0) path).String sampleRuntime)
          [.static "[[", .marker "hidden", .static "idden]] ", .marker "hidden"]
        = "[[hidden]] h".data := by
  decide

/-- C11 (amended): for a pre-split template, a list of paths that holds the
paths of its markers, and current field values, when no path holds a square
bracket and neither the literal texts nor the values hold an opening square
bracket: the string that `oneWayDataBinding.SetAttr` computes, and writes into
the `value` of an attribute or the `data` of a text node, is what the segment
list renders, each marker giving way to the value of its path, and it is so for
every ordering of the paths. -/
theorem render_eq_renderSegments (env : Env) (st : State) (obj : JSVal)
    (val : String → String) (segs : List Segment) (names : List String)
    (hcover : ∀ p, Segment.marker p ∈ segs → p ∈ names)
    (hnames : ∀ n ∈ names, '[' ∉ n.data ∧ ']' ∉ n.data)
    (hstatic : ∀ text, Segment.static text ∈ segs → '[' ∉ text.data)
    (hval : ∀ n ∈ names, '[' ∉ (val n).data)
    (hget : ∀ n ∈ names, ∃ fieldValue,
      attrPath.Get env st (newAttrPath n) obj = .ok fieldValue ∧
        fieldValue.String env.rt = val n) :
    (∀ order : List String, order.Perm names →
      oneWayDataBinding.render env st obj (order.map newAttrPath)
          ⟨templateOfSegments segs⟩ = .ok ⟨renderSegments val segs⟩) ∧
      (∀ (attr : Ref) (attrValue : JSVal) (st' : State),
        jsGet env st (.ref attr) "value" = .ok attrValue →
        oneWayDataBinding.SetAttr env
            { Str := ⟨templateOfSegments segs⟩, Attribute := .ref attr,
              Paths := names.map newAttrPath } st obj = .ok st' →
        st'.props attr (if attrValue = .undefined then "data" else "value") =
          .string ⟨renderSegments val segs⟩) := by
  have hmarker : ∀ p, Segment.marker p ∈ segs →
      '[' ∉ p.data ∧ ']' ∉ p.data ∧ '[' ∉ (val p).data := by
    intro p hp
    have hn := hcover p hp
    exact ⟨(hnames p hn).1, (hnames p hn).2, hval p hn⟩
  have hrender : ∀ order : List String, order.Perm names →
      oneWayDataBinding.render env st obj (order.map newAttrPath)
          ⟨templateOfSegments segs⟩ = .ok ⟨renderSegments val segs⟩ := by
    intro order hperm
    have h := render_expandSegments env st obj val segs order []
      (fun n hn => (hnames n (hperm.mem_iff.1 hn)).2) hstatic hmarker
      (fun n hn => hget n (hperm.mem_iff.1 hn))
    rw [expandSegments_nil] at h
    rw [h, expandSegments_all]
    intro p hp
    rw [List.append_nil, List.mem_reverse]
    exact hperm.mem_iff.2 (hcover p hp)
  refine ⟨hrender, ?_⟩
  intro attr attrValue st' hv hset
  exact oneWay_SetAttr_writes rfl (hrender names (List.Perm.refl _)) hv hset

theorem render_eq_renderSegments_witness :
    oneWayDataBinding.render sampleEnv sampleState (.ref (.obj 0))
        [["Count"], ["Name"]] "Hello [[Name]], [[Count]]" = .ok "Hello abc, 0" := by
  have h := (render_eq_renderSegments sampleEnv sampleState (.ref (.obj 0))
    (fun path => (sampleState.props (.obj 0) path).String sampleRuntime)
    [.static "Hello ", .marker "Name", .static ", ", .marker "Count"] ["Name", "Count"]
    (by
      intro p hp
      simp only [List.mem_cons, Segment.marker.injEq, List.mem_singleton, reduceCtorEq,
        false_or, List.not_mem_nil, or_false] at hp
      rcases hp with rfl | rfl <;> simp)
    (by decide)
    (by
      intro text ht
      simp only [List.mem_cons, Segment.static.injEq, List.mem_singleton, reduceCtorEq,
        false_or, or_false, List.not_mem_nil] at ht
      rcases ht with rfl | rfl <;> decide)
    (by decide)
    (by
      intro n hn
      simp only [List.mem_cons, List.mem_singleton, List.not_mem_nil, or_false] at hn
      rcases hn with rfl | rfl
      · exact ⟨.string "abc", by decide, by decide⟩
      · exact ⟨.number ⟨0⟩, by decide, by decide⟩)).1 ["Count", "Name"]
    (List.Perm.swap _ _ _)
  exact h

/-- For every binding path of at least one segment: after the "set" handler of
the proxy made for it has computed `append(pathPrefix, attributeName)`, the
binding path itself reads as its parent followed by `attributeName`. -/
theorem goAppend_rewrites_binding_path (arrays : List (List String)) (parent : List String)
    (last attributeName : String) :
    ((goSliceOf arrays (parent ++ [last])).1.upTo
        (((goSliceOf arrays (parent ++ [last])).1.len : Int) - 1)).map
      (fun pathPrefix =>
        (goSliceOf arrays (parent ++ [last])).1.elems
          (goAppend (goSliceOf arrays (parent ++ [last])).2 pathPrefix attributeName).2)
      = .ok (parent ++ [attributeName]) := by
  have hb : ((0 : Int) ≤ ((parent ++ [last]).length : Int) - 1 ∧
      ((parent ++ [last]).length : Int) - 1 ≤ ((parent ++ [last]).length : Int)) := by
    rw [List.length_append, List.length_singleton]
    constructor <;> omega
  have hn : (((parent ++ [last]).length : Int) - 1).toNat = parent.length := by
    rw [List.length_append, List.length_singleton]
    omega
  have hlt : parent.length < (parent ++ [last]).length := by
    rw [List.length_append, List.length_singleton]
    omega
  simp only [goSliceOf, GoSlice.upTo, hb, and_self, if_true, Except.map, hn, goAppend, hlt,
    GoSlice.elems]
  congr 1
  simp [List.getD_eq_getElem?_getD, List.getElem?_append_right, List.set_append_right,
    List.set_append_left, List.take_append_eq_append_take]

/-- C2: the template `[[Info.Title]]` is registered under the key `Info.Title`;
when the property `Count` is then written through the proxy made for this
binding, `append(pathPrefix, attributeName)` yields the path `Info.Count` and
the path that the binding holds reads `Info.Count` as well, so that the map
holds under `Info.Title` a binding whose `Paths` do not contain `Info.Title`.
The prefix of the root proxy has no capacity, and `append` leaves the arrays of
the bindings as they are. -/
theorem nested_write_rewrites_binding_path :
    attrPath.String (sampleBindedPath.1.elems sampleBindedPath.2) = "Info.Title" ∧
      (sampleBindedPath.1.upTo ((sampleBindedPath.1.len : Int) - 1)).map
          (fun pathPrefix =>
            ((goAppend sampleBindedPath.2 pathPrefix "Count").1.elems
                (goAppend sampleBindedPath.2 pathPrefix "Count").2,
              sampleBindedPath.1.elems (goAppend sampleBindedPath.2 pathPrefix "Count").2))
        = .ok (["Info", "Count"], ["Info", "Count"]) ∧
      sampleBindedPath.1.elems (goAppend sampleBindedPath.2 sampleRootPrefix "Name").2
        = ["Info", "Title"] := by
  decide

end Golymer
